import Mathlib

/-!
RocketRPC: buffer, dispatcher and connection.

A shallow embedding of `rocket/net/tcp/tcp_buffer.cc`,
`rocket/net/rpc/rpc_dispatcher.cc` and `rocket/net/tcp/tcp_connection.cc`.

Conventions of the embedding:

* a C++ `int` is a Lean `Int`. Where the code computes an `int` that can leave the
  range of `int` although its operands are in range (the new capacity of a growing
  buffer), the result is checked by `intInRange`, and a conversion that narrows
  (`size_t` or `long` to `int`) is written out by `toInt`; a conversion to `size_t`
  is written as an explicit `% 2 ^ 64`;
* a `std::vector<char>` is a list of `Byte`s and a `std::string` a list of
  characters;
* an operation whose C++ execution would leave defined behaviour or throw (a `memcpy`
  outside its vectors, a vector of negative size, an `int` out of range) returns
  `none`.
-/

namespace rocket

/-- One `char` of a buffer. -/
abbrev Byte := Fin 256

/-- The constant `INT_MAX` of a 32-bit `int`. -/
def INT_MAX : Int := 2147483647

/-- The constant `INT_MIN` of a 32-bit `int`. -/
def INT_MIN : Int := -2147483648

/-- A value that the code computes in `int` (a sum of two `int`s, a `double` cast to
`int`): inside the range of `int` it is the value; outside, the computation is
undefined in C++ (the cast of the new buffer size then yields a size whose vector
cannot be allocated, and the constructor throws). -/
def intInRange (x : Int) : Option Int :=
  if INT_MIN ≤ x ∧ x ≤ INT_MAX then some x else none

/-- The conversion of a `size_t` or a `long` to `int`: the low 32 bits, as a signed
number. -/
def toInt (x : Int) : Int := (x + 2 ^ 31) % 2 ^ 32 - 2 ^ 31

/-- The constructor `std::vector<char> v(n)`: `n` zero bytes; a negative `n` converts to
a huge `size_t` and the allocation throws. -/
def vectorOfSize (n : Int) : Option (List Byte) :=
  if 0 ≤ n then some (List.replicate n.toNat 0) else none

/-- The call `memcpy(&dst[doff], &src[soff], count)`: the `count` bytes of `src` from
`soff` on overwrite `dst` from `doff` on. Both ranges must lie inside their vectors; a
negative `count` converts to a huge `size_t` and leaves them. -/
def memcpy (dst : List Byte) (doff : Int) (src : List Byte) (soff : Int) (count : Int) :
    Option (List Byte) :=
  if 0 ≤ count ∧ 0 ≤ doff ∧ 0 ≤ soff ∧ doff + count ≤ dst.length ∧
      soff + count ≤ src.length then
    some (dst.take doff.toNat ++ (src.drop soff.toNat).take count.toNat ++
      dst.drop (doff + count).toNat)
  else none

/-- The class `TcpBuffer`: `m_buffer.size()` is the capacity. -/
structure TcpBuffer where
  m_read_index : Int
  m_write_index : Int
  m_size : Int
  m_buffer : List Byte
  deriving DecidableEq, Repr

namespace TcpBuffer

/-- The constructor `TcpBuffer(int size)`: both indices start at 0. -/
def new (size : Int) : Option TcpBuffer :=
  if 0 ≤ size then
    some { m_read_index := 0, m_write_index := 0, m_size := size,
           m_buffer := List.replicate size.toNat 0 }
  else none

/-- The method `readAble()`. -/
def readAble (b : TcpBuffer) : Int := b.m_write_index - b.m_read_index

/-- The method `writeAble()`. -/
def writeAble (b : TcpBuffer) : Int := (b.m_buffer.length : Int) - b.m_write_index

/-- The method `readIndex()`. -/
def readIndex (b : TcpBuffer) : Int := b.m_read_index

/-- The method `writeIndex()`. -/
def writeIndex (b : TcpBuffer) : Int := b.m_write_index

/-- The method `resizeBuffer(int new_size)`. -/
def resizeBuffer (b : TcpBuffer) (new_size : Int) : Option TcpBuffer := do
  let tmp ← vectorOfSize new_size
  let count := min new_size b.readAble
  let tmp ← memcpy tmp 0 b.m_buffer b.m_read_index count
  some { b with m_buffer := tmp, m_read_index := 0, m_write_index := 0 + count }

/-- The method `adjustBuffer()`. -/
def adjustBuffer (b : TcpBuffer) : Option TcpBuffer :=
  if b.m_read_index < ((b.m_buffer.length / 3 : Nat) : Int) then some b
  else do
    let buffer ← vectorOfSize b.m_buffer.length
    let count := b.readAble
    let buffer ← memcpy buffer 0 b.m_buffer b.m_read_index count
    some { b with m_buffer := buffer, m_read_index := 0, m_write_index := 0 + count }

/-- The method `writeToBuffer(const char *buf, int size)`; `buf` points to the bytes
of the list `buf`. The sum `m_write_index + size` is an `int`; the product with `1.5`
is exact in `double`, and the cast `(int)(1.5 * x)` truncates towards zero and must
land in the range of `int`. -/
def writeToBuffer (b : TcpBuffer) (buf : List Byte) (size : Int) : Option TcpBuffer := do
  let b ← if size > b.writeAble then do
      let sum ← intInRange (b.m_write_index + size)
      let new_size ← intInRange (Int.tdiv (3 * sum) 2)
      resizeBuffer b new_size
    else some b
  let buffer ← memcpy b.m_buffer b.m_write_index buf 0 size
  some { b with m_buffer := buffer, m_write_index := b.m_write_index + size }

/-- The method `readFromBuffer(std::vector<char> &re, int size)`: the result is the
vector `re` after the call and the buffer after the call. -/
def readFromBuffer (b : TcpBuffer) (re : List Byte) (size : Int) :
    Option (List Byte × TcpBuffer) :=
  if b.readAble = 0 then some (re, b)
  else do
    let read_size := if b.readAble > size then size else b.readAble
    let tmp ← vectorOfSize read_size
    let tmp ← memcpy tmp 0 b.m_buffer b.m_read_index read_size
    let b ← adjustBuffer { b with m_read_index := b.m_read_index + read_size }
    some (tmp, b)

/-- The method `moveReadIndex(int size)`; `j` is a `size_t`. -/
def moveReadIndex (b : TcpBuffer) (size : Int) : Option TcpBuffer :=
  let j : Int := (b.m_read_index + size) % 2 ^ 64
  if j ≥ b.m_buffer.length then some b
  else adjustBuffer { b with m_read_index := j }

/-- The method `moveWriteIndex(int size)`; `j` is a `size_t`. -/
def moveWriteIndex (b : TcpBuffer) (size : Int) : Option TcpBuffer :=
  let j : Int := (b.m_write_index + size) % 2 ^ 64
  if j ≥ b.m_buffer.length then some b
  else adjustBuffer { b with m_write_index := j }

/-- The index invariant `0 ≤ read_index ≤ write_index ≤ capacity`. -/
def IndexInv (b : TcpBuffer) : Prop :=
  0 ≤ b.m_read_index ∧ b.m_read_index ≤ b.m_write_index ∧
    b.m_write_index ≤ (b.m_buffer.length : Int)

instance (b : TcpBuffer) : Decidable b.IndexInv := by
  unfold IndexInv; infer_instance

/-- The bytes still readable: those from `m_read_index` up to `m_write_index`. -/
def readableBytes (b : TcpBuffer) : List Byte :=
  (b.m_buffer.drop b.m_read_index.toNat).take b.readAble.toNat

end TcpBuffer

/-- One call of a sequence of buffer calls: `writeToBuffer(bytes, bytes.size())` or
`readFromBuffer(out, n)` with `out` passed in empty. -/
inductive BufferCall where
  | write (bytes : List Byte)
  | read (n : Nat)
  deriving DecidableEq, Repr

/-- Runs a sequence of calls; the result is the list of vectors the reads returned, in
call order, and the buffer at the end. -/
def runCalls : TcpBuffer → List BufferCall → Option (List (List Byte) × TcpBuffer)
  | b, [] => some ([], b)
  | b, BufferCall.write bytes :: cs => do
      let b ← b.writeToBuffer bytes bytes.length
      runCalls b cs
  | b, BufferCall.read n :: cs => do
      let (out, b) ← b.readFromBuffer [] n
      let (outs, b) ← runCalls b cs
      some (out :: outs, b)

/-- All bytes written by the `write` calls of a sequence, in call order. -/
def bytesWritten : List BufferCall → List Byte
  | [] => []
  | BufferCall.write bytes :: cs => bytes ++ bytesWritten cs
  | BufferCall.read _ :: cs => bytesWritten cs

/-- Whether a write of `size` bytes keeps the capacity in the range of `int`: the
bytes fit in the writable space, or the new capacity `⌊1.5 * (w + size)⌋` is at most
`INT_MAX`. -/
def TcpBuffer.growthFits (b : TcpBuffer) (size : Int) : Bool :=
  decide (size > b.writeAble → 3 * (b.m_write_index + size) / 2 ≤ INT_MAX)

/-- Whether every write of a sequence of calls, at the buffer it meets, keeps the
capacity in the range of `int`. -/
def growthsFit : TcpBuffer → List BufferCall → Bool
  | _, [] => true
  | b, BufferCall.write bytes :: cs =>
    b.growthFits bytes.length &&
      (match b.writeToBuffer bytes bytes.length with
       | some b' => growthsFit b' cs
       | none => true)
  | b, BufferCall.read n :: cs =>
    match b.readFromBuffer [] n with
    | some (_, b') => growthsFit b' cs
    | none => true

/-! ## Strings, maps and protocol messages -/

/-- A `std::string`. -/
abbrev Str := List Char

/-- The call `s.find_first_of(chars)`: the index of the first character of `s` that
occurs in `chars`; `none` stands for `npos`. -/
def find_first_of : Str → Str → Option Nat
  | [], _ => none
  | c :: s, chars =>
    if c ∈ chars then some 0 else (find_first_of s chars).map (· + 1)

/-- The call `s.substr(pos, n)`. Both call sites have `pos ≤ s.size()`, where it does
not throw. -/
def substr (s : Str) (pos n : Nat) : Str := (s.drop pos).take n

/-- A `std::map<std::string, V>`, kept as an association list with one entry per key;
only `find`, `insert`, `erase` and `operator[]` are used, none of which shows the
order of the keys. -/
abbrev StdMap (V : Type) := List (Str × V)

namespace StdMap

/-- The call `m.find(k)`: the mapped value, `none` for `m.end()`. -/
def find {V : Type} : StdMap V → Str → Option V
  | [], _ => none
  | (k', v) :: m, k => if k' = k then some v else find m k

/-- The call `m.erase(it)` for the iterator at key `k`. -/
def erase {V : Type} : StdMap V → Str → StdMap V
  | [], _ => []
  | (k', v) :: m, k => if k' = k then erase m k else (k', v) :: erase m k

/-- The assignment `m[k] = v`: inserts or overwrites. -/
def assign {V : Type} (m : StdMap V) (k : Str) (v : V) : StdMap V :=
  (k, v) :: erase m k

/-- The call `m.insert(std::make_pair(k, v))`: an existing entry is kept. -/
def insert {V : Type} (m : StdMap V) (k : Str) (v : V) : StdMap V :=
  match find m k with
  | some _ => m
  | none => (k, v) :: m

end StdMap

/-- The fields of `TinyPBProtocol` (and of its base `AbstractProtocol`) that the
sources read or write. -/
structure TinyPBProtocol where
  m_msg_id : Str
  m_method_name : Str
  m_err_code : Int
  m_err_info : Str
  m_err_info_len : Int
  m_pb_data : Str
  deriving DecidableEq, Repr

/-- Modelled from the spec: `tinypb_protocol.h` is not among the sources; this is the
"empty-response" of §4.8 that `std::make_shared<TinyPBProtocol>()` builds, with empty
strings and zero numbers. -/
def TinyPBProtocol.empty : TinyPBProtocol :=
  { m_msg_id := [], m_method_name := [], m_err_code := 0, m_err_info := [],
    m_err_info_len := 0, m_pb_data := [] }

/-- The constants of `rocket/common/error_code.h` that the dispatcher uses; the header
is not among the sources, so their values are a parameter. -/
structure ErrorCodes where
  ERROR_PARSE_SERVICE_NAME : Int
  ERROR_SERVICE_NOT_FOUND : Int
  ERROR_FAILED_DESERIALIZE : Int
  ERROR_FAILED_SERIALIZE : Int
  deriving DecidableEq, Repr

/-- An address (`NetAddr::s_ptr`), as `IPNetAddr` stores it. -/
structure IPNetAddr where
  m_ip : Str
  m_port : Int
  deriving DecidableEq, Repr

/-! ## The protobuf side of a handler -/

/-- A `google::protobuf::Message` value. Its type and fields are the business of the
service, so it is kept as an uninterpreted string. -/
abbrev Message := Str

/-- A `google::protobuf::MethodDescriptor`. -/
structure MethodDescriptor where
  name : Str
  deriving DecidableEq, Repr

/-- The `RpcController` that `dispatch` fills in. -/
structure RpcController where
  m_local_addr : IPNetAddr
  m_peer_addr : IPNetAddr
  m_msg_id : Str
  deriving DecidableEq, Repr

/-- The per-thread `RunTime` slot. -/
structure RunTime where
  m_msgid : Str
  m_method_name : Str
  deriving DecidableEq, Repr

/-- A registered handler (`google::protobuf::Service`), which is user code and the
protobuf library: what `dispatch` asks of it.

* `full_name`: `GetDescriptor()->full_name()`;
* `FindMethodByName`: `GetDescriptor()->FindMethodByName(name)`, `none` for `NULL`;
* `ParseFromString m data`: `GetRequestPrototype(m).New()` followed by
  `ParseFromString(data)`: the parsed request, `none` when it returns `false`;
* `CallMethod m controller req_msg`: the handler. `some rsp_msg` when it fills the
  response in as `rsp_msg` and runs the closure before it returns; `none` when it
  returns without running the closure;
* `SerializeToString m rsp_msg`: the result of `rsp_msg->SerializeToString(&out)` and
  the contents it leaves in `out`. -/
structure Service where
  full_name : Str
  FindMethodByName : Str → Option MethodDescriptor
  ParseFromString : MethodDescriptor → Str → Option Message
  CallMethod : MethodDescriptor → RpcController → Message → Option Message
  SerializeToString : MethodDescriptor → Message → Bool × Str

/-! ## TcpConnection -/

/-- The enum `TcpState`. -/
inductive TcpState where
  | NotConnected
  | Connected
  | HalfClosing
  | Closed
  deriving DecidableEq, Repr

/-- The enum `TcpConnectionType`. -/
inductive TcpConnectionType where
  | TcpConnectionByServer
  | TcpConnectionByClient
  deriving DecidableEq, Repr

/-- The enum `FdEvent::TriggerEvent`. -/
inductive TriggerEvent where
  | IN_EVENT
  | OUT_EVENT
  deriving DecidableEq, Repr

/-- What a bound callback of an `FdEvent` is bound to. -/
inductive FdCallback where
  | onRead
  | onWrite
  deriving DecidableEq, Repr

/-- Modelled from the spec: `fd_event.h` is not among the sources. §3 and §4.2: an
`FdEvent` is an interest mask with a read and a write callback; `listen` sets the
callback and the interest bit of its direction, `cancel` clears both. A direction is
of interest exactly when its callback is present. -/
structure FdEvent where
  read_callback : Option FdCallback
  write_callback : Option FdCallback
  deriving DecidableEq, Repr

namespace FdEvent

/-- Modelled from the spec: `listen(event, callback)` of §4.2. -/
def listen (e : FdEvent) (event : TriggerEvent) (callback : FdCallback) : FdEvent :=
  match event with
  | TriggerEvent.IN_EVENT => { e with read_callback := some callback }
  | TriggerEvent.OUT_EVENT => { e with write_callback := some callback }

/-- Modelled from the spec: `cancel(event)` of §4.2. -/
def cancle (e : FdEvent) (event : TriggerEvent) : FdEvent :=
  match event with
  | TriggerEvent.IN_EVENT => { e with read_callback := none }
  | TriggerEvent.OUT_EVENT => { e with write_callback := none }

end FdEvent

/-- A call that a connection makes on its `EventLoop`, with the `FdEvent` it passes. -/
inductive EpollCall where
  | addEpollEvent (event : FdEvent)
  | deleteEpollEvent (event : FdEvent)
  deriving DecidableEq, Repr

/-- The `AbstractCoder` of a connection. `tinypb_coder.cc` is not among the sources, so
the codec is a parameter: `encode messages out_buffer` is the out-buffer after
`encode`, and `decode in_buffer` the messages decoded and the in-buffer after
`decode`. -/
structure Coder where
  encode : List TinyPBProtocol → TcpBuffer → TcpBuffer
  decode : TcpBuffer → List TinyPBProtocol × TcpBuffer

/-- A user callback `std::function<void(AbstractProtocol::s_ptr)>`, named by a number;
running it is recorded, its body is user code. -/
abbrev Callback := Nat

/-- The class `TcpConnection`. `m_event_loop` holds the calls made on the owning
`EventLoop` (`eventloop.h` is not among the sources), oldest first, and `m_shut_rdwr`
tells whether `::shutdown(m_fd, SHUT_RDWR)` has been issued. -/
structure TcpConnection where
  m_event_loop : List EpollCall
  m_local_addr : IPNetAddr
  m_peer_addr : IPNetAddr
  m_state : TcpState
  m_fd : Int
  m_connection_type : TcpConnectionType
  m_in_buffer : TcpBuffer
  m_out_buffer : TcpBuffer
  m_fd_event : FdEvent
  m_coder : Coder
  m_write_dones : List (TinyPBProtocol × Callback)
  m_read_dones : StdMap Callback
  m_shut_rdwr : Bool

namespace TcpConnection

/-- The method `listenWrite()`. -/
def listenWrite (c : TcpConnection) : TcpConnection :=
  let m_fd_event := c.m_fd_event.listen TriggerEvent.OUT_EVENT FdCallback.onWrite
  { c with m_fd_event := m_fd_event,
           m_event_loop := c.m_event_loop ++ [EpollCall.addEpollEvent m_fd_event] }

/-- The method `listenRead()`. -/
def listenRead (c : TcpConnection) : TcpConnection :=
  let m_fd_event := c.m_fd_event.listen TriggerEvent.IN_EVENT FdCallback.onRead
  { c with m_fd_event := m_fd_event,
           m_event_loop := c.m_event_loop ++ [EpollCall.addEpollEvent m_fd_event] }

/-- The method `reply(replay_messages)`. -/
def reply (c : TcpConnection) (replay_messages : List TinyPBProtocol) : TcpConnection :=
  listenWrite { c with m_out_buffer := c.m_coder.encode replay_messages c.m_out_buffer }

/-- The method `setState(state)`. -/
def setState (c : TcpConnection) (_state : TcpState) : TcpConnection :=
  { c with m_state := TcpState.Connected }

/-- The method `getState()`. -/
def getState (c : TcpConnection) : TcpState := c.m_state

/-- The method `clear()`. -/
def clear (c : TcpConnection) : TcpConnection :=
  if c.m_state = TcpState.Closed then c
  else
    let m_fd_event := c.m_fd_event.cancle TriggerEvent.IN_EVENT
    let m_fd_event := m_fd_event.cancle TriggerEvent.OUT_EVENT
    { c with m_fd_event := m_fd_event,
             m_event_loop := c.m_event_loop ++ [EpollCall.deleteEpollEvent m_fd_event],
             m_state := TcpState.Closed }

/-- The method `shutdown()`. -/
def shutdown (c : TcpConnection) : TcpConnection :=
  if c.m_state = TcpState.Closed ∨ c.m_state = TcpState.NotConnected then c
  else { c with m_state := TcpState.HalfClosing, m_shut_rdwr := true }

/-- The method `setConnectionType(type)`. -/
def setConnectionType (c : TcpConnection) (type : TcpConnectionType) : TcpConnection :=
  { c with m_connection_type := type }

/-- The method `pushSendMessage(message, done)`. -/
def pushSendMessage (c : TcpConnection) (message : TinyPBProtocol) (done : Callback) :
    TcpConnection :=
  { c with m_write_dones := c.m_write_dones ++ [(message, done)] }

/-- The method `pushReadMessage(msg_id, done)`. -/
def pushReadMessage (c : TcpConnection) (msg_id : Str) (done : Callback) : TcpConnection :=
  { c with m_read_dones := c.m_read_dones.insert msg_id done }

/-- The method `getLocalAddr()`. -/
def getLocalAddr (c : TcpConnection) : IPNetAddr := c.m_local_addr

/-- The method `getPeerAddr()`. -/
def getPeerAddr (c : TcpConnection) : IPNetAddr := c.m_peer_addr

/-- The method `getFd()`. -/
def getFd (c : TcpConnection) : Int := c.m_fd

/-- The constructor `TcpConnection(event_loop, fd, buffer_size, peer_addr, local_addr,
type)`; `fd_event` is what `FdEventGroup::GetFdEventGroup()->getFdEvent(fd)` hands out
and `coder` the `TinyPBCoder` it creates. -/
def new (event_loop : List EpollCall) (fd : Int) (buffer_size : Int)
    (peer_addr local_addr : IPNetAddr) (type : TcpConnectionType) (fd_event : FdEvent)
    (coder : Coder) : Option TcpConnection := do
  let m_in_buffer ← TcpBuffer.new buffer_size
  let m_out_buffer ← TcpBuffer.new buffer_size
  let c : TcpConnection :=
    { m_event_loop := event_loop, m_local_addr := local_addr, m_peer_addr := peer_addr,
      m_state := TcpState.NotConnected, m_fd := fd, m_connection_type := type,
      m_in_buffer := m_in_buffer, m_out_buffer := m_out_buffer, m_fd_event := fd_event,
      m_coder := coder, m_write_dones := [], m_read_dones := [], m_shut_rdwr := false }
  if type = TcpConnectionType.TcpConnectionByServer then some c.listenRead else some c

end TcpConnection

/-! ## RpcDispatcher -/

/-- The class `RpcDispatcher`. -/
structure RpcDispatcher where
  m_service_map : StdMap Service

/-- Where a call of `dispatch` ends: at one of its four early returns, or at
`service->CallMethod(method, rpc_controller, req_msg, rsp_msg, closure)`, with the
arguments of that call and the `RunTime` slot as set before it. -/
inductive DispatchOutcome where
  | parseError
  | serviceNotFound
  | methodNotFound
  | deserializeError
  | called (service : Service) (method : MethodDescriptor) (rpc_controller : RpcController)
      (req_msg : Message) (run_time : RunTime)

/-- Whether the handler was invoked. -/
def DispatchOutcome.isCalled : DispatchOutcome → Bool
  | DispatchOutcome.called _ _ _ _ _ => true
  | _ => false

/-- Whether `dispatch` ended at its parse-error return. -/
def DispatchOutcome.isParseError : DispatchOutcome → Bool
  | DispatchOutcome.parseError => true
  | _ => false

/-- The state a call of `dispatch` leaves: the response object, the connection and
where the call ended. -/
structure DispatchResult where
  response : TinyPBProtocol
  connection : TcpConnection
  outcome : DispatchOutcome

namespace RpcDispatcher

/-- The method `setTinyPBError(msg, err_code, err_info)`. -/
def setTinyPBError (msg : TinyPBProtocol) (err_code : Int) (err_info : Str) :
    TinyPBProtocol :=
  { msg with m_err_code := err_code, m_err_info := err_info,
             m_err_info_len := err_info.length }

/-- The method `parseServiceFullName(full_name, service_name, method_name)`: the
returned `bool` and the two output strings after the call. -/
def parseServiceFullName (full_name service_name method_name : Str) : Bool × Str × Str :=
  if full_name.isEmpty then (false, service_name, method_name)
  else
    match find_first_of full_name ".".toList with
    | none => (false, service_name, method_name)
    | some i =>
      let service_name := substr full_name 0 i
      let method_name := substr full_name (i + 1) (full_name.length - i - 1)
      (true, service_name, method_name)

/-- The method `registerService(service)`. -/
def registerService (d : RpcDispatcher) (service : Service) : RpcDispatcher :=
  let service_name := service.full_name
  { d with m_service_map := d.m_service_map.assign service_name service }

/-- A sequence of calls of `registerService`, in call order. -/
def registerServices (d : RpcDispatcher) (services : List Service) : RpcDispatcher :=
  services.foldl registerService d

/-- The body of the lambda that `dispatch` wraps into its `RpcClosure`, run when the
response message is `rsp_msg`, the response object `rsp_protocol` and the connection
`connection`: the response object and the connection after the run. -/
def replyClosure (codes : ErrorCodes) (service : Service) (method : MethodDescriptor)
    (rsp_msg : Message) (rsp_protocol : TinyPBProtocol) (connection : TcpConnection) :
    TinyPBProtocol × TcpConnection :=
  let serialized := service.SerializeToString method rsp_msg
  let rsp_protocol := { rsp_protocol with m_pb_data := serialized.2 }
  let rsp_protocol :=
    if !serialized.1 then
      setTinyPBError rsp_protocol codes.ERROR_FAILED_SERIALIZE "serilize error".toList
    else
      { rsp_protocol with m_err_code := 0, m_err_info := "".toList }
  let replay_messages := [rsp_protocol]
  (rsp_protocol, connection.reply replay_messages)

/-- The method `dispatch(request, response, connection)`. -/
def dispatch (d : RpcDispatcher) (codes : ErrorCodes) (request response : TinyPBProtocol)
    (connection : TcpConnection) : DispatchResult :=
  let req_protocol := request
  let rsp_protocol := response
  let method_full_name := req_protocol.m_method_name
  let rsp_protocol := { rsp_protocol with m_msg_id := req_protocol.m_msg_id }
  let rsp_protocol := { rsp_protocol with m_method_name := req_protocol.m_method_name }
  match parseServiceFullName method_full_name [] [] with
  | (false, _, _) =>
    { response := setTinyPBError rsp_protocol codes.ERROR_PARSE_SERVICE_NAME
        "parse service name error".toList,
      connection := connection, outcome := DispatchOutcome.parseError }
  | (true, service_name, method_name) =>
    match d.m_service_map.find service_name with
    | none =>
      { response := setTinyPBError rsp_protocol codes.ERROR_SERVICE_NOT_FOUND
          "service not found".toList,
        connection := connection, outcome := DispatchOutcome.serviceNotFound }
    | some service =>
      match service.FindMethodByName method_name with
      | none =>
        { response := setTinyPBError rsp_protocol codes.ERROR_SERVICE_NOT_FOUND
            "method not found".toList,
          connection := connection, outcome := DispatchOutcome.methodNotFound }
      | some method =>
        match service.ParseFromString method req_protocol.m_pb_data with
        | none =>
          { response := setTinyPBError rsp_protocol codes.ERROR_FAILED_DESERIALIZE
              "deserilize error".toList,
            connection := connection, outcome := DispatchOutcome.deserializeError }
        | some req_msg =>
          let rpc_controller : RpcController :=
            { m_local_addr := connection.getLocalAddr,
              m_peer_addr := connection.getPeerAddr,
              m_msg_id := req_protocol.m_msg_id }
          let run_time : RunTime :=
            { m_msgid := req_protocol.m_msg_id, m_method_name := method_name }
          let outcome :=
            DispatchOutcome.called service method rpc_controller req_msg run_time
          match service.CallMethod method rpc_controller req_msg with
          | none =>
            { response := rsp_protocol, connection := connection, outcome := outcome }
          | some rsp_msg =>
            let ran := replyClosure codes service method rsp_msg rsp_protocol connection
            { response := ran.1, connection := ran.2, outcome := outcome }

end RpcDispatcher

/-! ## TcpConnection: excute -/

/-- What a call of `excute` leaves: the connection, on a server connection where each
`dispatch` ended (in request order), and on a client connection the callbacks of
`m_read_dones` that were run, each with its argument (in the order run). -/
structure ExcuteResult where
  connection : TcpConnection
  dispatched : List DispatchOutcome
  read_dones_run : List (Callback × TinyPBProtocol)

namespace TcpConnection

/-- The loop of the server branch of `excute` over the decoded requests. -/
def excuteServerLoop (dispatcher : RpcDispatcher) (codes : ErrorCodes) :
    List TinyPBProtocol → TcpConnection → TcpConnection × List DispatchOutcome
  | [], c => (c, [])
  | request :: result, c =>
    let message := TinyPBProtocol.empty
    let r := dispatcher.dispatch codes request message c
    let rest := excuteServerLoop dispatcher codes result r.connection
    (rest.1, r.outcome :: rest.2)

/-- The loop of the client branch of `excute` over the decoded replies: the map
`m_read_dones` after it and the callbacks run. -/
def excuteClientLoop :
    List TinyPBProtocol → StdMap Callback → StdMap Callback × List (Callback × TinyPBProtocol)
  | [], m_read_dones => (m_read_dones, [])
  | reply :: result, m_read_dones =>
    let msg_id := reply.m_msg_id
    match m_read_dones.find msg_id with
    | some done =>
      let rest := excuteClientLoop result (m_read_dones.erase msg_id)
      (rest.1, (done, reply) :: rest.2)
    | none => excuteClientLoop result m_read_dones

/-- The method `excute()`; `dispatcher` is the singleton
`RpcDispatcher::GetRpcDispatcher()`. -/
def excute (c : TcpConnection) (dispatcher : RpcDispatcher) (codes : ErrorCodes) :
    ExcuteResult :=
  if c.m_connection_type = TcpConnectionType.TcpConnectionByServer then
    let decoded := c.m_coder.decode c.m_in_buffer
    let c := { c with m_in_buffer := decoded.2 }
    let r := excuteServerLoop dispatcher codes decoded.1 c
    { connection := r.1, dispatched := r.2, read_dones_run := [] }
  else
    let decoded := c.m_coder.decode c.m_in_buffer
    let c := { c with m_in_buffer := decoded.2 }
    let r := excuteClientLoop decoded.1 c.m_read_dones
    { connection := { c with m_read_dones := r.1 }, dispatched := [],
      read_dones_run := r.2 }

end TcpConnection

/-! ## TcpConnection: the socket callbacks

The socket is the environment of a connection. A call of `onRead` or `onWrite` is run
against a script: the results of the successive `read` (or `write`) system calls, in
order. Once the script is used up, every further call reports `EAGAIN`. A result that
the system call cannot give for the request made (more bytes than were asked for)
makes the run `none`, as does undefined behaviour of a buffer operation. -/

/-- What one call `read(m_fd, &m_buffer[write_index], read_count)` returns. -/
inductive ReadResult where
  /-- Result `rt = bytes.length > 0`: these bytes were stored from `write_index` on. -/
  | data (bytes : List Byte)
  /-- Result `rt = 0`: the peer has closed. -/
  | eof
  /-- Result `rt = -1` with `errno = EAGAIN`. -/
  | eagain
  /-- Result `rt = -1` with another `errno` (`EINTR` included). -/
  | error
  deriving DecidableEq, Repr

/-- What one call `write(m_fd, &m_buffer[read_index], write_size)` returns. -/
inductive WriteResult where
  /-- Result `rt = n ≥ 0`: the socket accepted the first `n` bytes. -/
  | wrote (n : Nat)
  /-- Result `rt = -1` with `errno = EAGAIN`. -/
  | eagain
  /-- Result `rt = -1` with another `errno`. -/
  | error
  deriving DecidableEq, Repr

/-- What the read loop of `onRead` leaves: the in-buffer, the two flags and the number
of `read` calls made. -/
structure ReadLoopResult where
  in_buffer : TcpBuffer
  is_read_all : Bool
  is_close : Bool
  reads : Nat
  deriving DecidableEq, Repr

/-- What the write loop of `onWrite` leaves: the flag, the bytes the socket accepted
(one list per `write` call that accepted some) and the number of `write` calls made. -/
structure WriteLoopResult where
  is_write_all : Bool
  sent : List (List Byte)
  writes : Nat
  deriving DecidableEq, Repr

/-- What a call of `onRead` leaves: the connection, the number of `read` calls made,
and what `excute` did when the call reached it. -/
structure OnReadResult where
  connection : TcpConnection
  reads : Nat
  excuted : Option ExcuteResult

/-- What a call of `onWrite` leaves: the connection, the bytes the socket accepted, the
number of `write` calls made and the callbacks of `m_write_dones` that were run, each
with its argument (in the order run). -/
structure OnWriteResult where
  connection : TcpConnection
  sent : List (List Byte)
  writes : Nat
  write_dones_run : List (Callback × TinyPBProtocol)

namespace TcpConnection

/-- The first statement of the read loop of `onRead`: a full in-buffer is doubled. The
product `2 * m_buffer.size()` is a `size_t`, converted to the `int` parameter of
`resizeBuffer`. -/
def growIfFull (in_buffer : TcpBuffer) : Option TcpBuffer :=
  if in_buffer.writeAble = 0 then
    in_buffer.resizeBuffer (toInt ((2 * (in_buffer.m_buffer.length : Int)) % 2 ^ 64))
  else some in_buffer

/-- The loop `while (!is_read_all)` of `onRead`, from the in-buffer `in_buffer`. -/
def readLoop : TcpBuffer → List ReadResult → Option ReadLoopResult
  | in_buffer, [] => do
    let in_buffer ← growIfFull in_buffer
    some { in_buffer := in_buffer, is_read_all := true, is_close := false, reads := 1 }
  | in_buffer, r :: script => do
    let in_buffer ← growIfFull in_buffer
    let read_count := in_buffer.writeAble
    let write_index := in_buffer.writeIndex
    match r with
    | ReadResult.data bytes =>
      let rt : Int := bytes.length
      if 0 < rt ∧ rt ≤ read_count then do
        let stored ← memcpy in_buffer.m_buffer write_index bytes 0 rt
        let in_buffer ← TcpBuffer.moveWriteIndex { in_buffer with m_buffer := stored } rt
        if rt = read_count then do
          let rest ← readLoop in_buffer script
          some { rest with reads := rest.reads + 1 }
        else
          some { in_buffer := in_buffer, is_read_all := true, is_close := false,
                 reads := 1 }
      else none
    | ReadResult.eof =>
      some { in_buffer := in_buffer, is_read_all := false, is_close := true, reads := 1 }
    | ReadResult.eagain =>
      some { in_buffer := in_buffer, is_read_all := true, is_close := false, reads := 1 }
    | ReadResult.error => do
      let rest ← readLoop in_buffer script
      some { rest with reads := rest.reads + 1 }

/-- The method `onRead()`, run against the script `script` of `read` results. -/
def onRead (c : TcpConnection) (script : List ReadResult) (dispatcher : RpcDispatcher)
    (codes : ErrorCodes) : Option OnReadResult :=
  if c.m_state ≠ TcpState.Connected then
    some { connection := c, reads := 0, excuted := none }
  else do
    let r ← readLoop c.m_in_buffer script
    let c := { c with m_in_buffer := r.in_buffer }
    if r.is_close then
      some { connection := c.clear, reads := r.reads, excuted := none }
    else
      let e := c.excute dispatcher codes
      some { connection := e.connection, reads := r.reads, excuted := some e }

/-- The loop `while (true)` of `onWrite` over the out-buffer `out_buffer`, which it
does not change. -/
def writeLoop (out_buffer : TcpBuffer) : List WriteResult → Option WriteLoopResult
  | [] =>
    if out_buffer.readAble = 0 then some { is_write_all := true, sent := [], writes := 0 }
    else some { is_write_all := false, sent := [], writes := 1 }
  | w :: script =>
    if out_buffer.readAble = 0 then some { is_write_all := true, sent := [], writes := 0 }
    else
      let write_size := out_buffer.readAble
      let read_index := out_buffer.readIndex
      if 0 ≤ read_index ∧ 0 ≤ write_size ∧
          read_index + write_size ≤ out_buffer.m_buffer.length then
        match w with
        | WriteResult.wrote n =>
          let rt : Int := n
          if rt ≤ write_size then
            let accepted := (out_buffer.m_buffer.drop read_index.toNat).take n
            if rt ≥ write_size then
              some { is_write_all := true, sent := [accepted], writes := 1 }
            else do
              let rest ← writeLoop out_buffer script
              some { rest with sent := accepted :: rest.sent, writes := rest.writes + 1 }
          else none
        | WriteResult.eagain => some { is_write_all := false, sent := [], writes := 1 }
        | WriteResult.error => do
          let rest ← writeLoop out_buffer script
          some { rest with writes := rest.writes + 1 }
      else none

/-- The method `onWrite()`, run against the script `script` of `write` results. -/
def onWrite (c : TcpConnection) (script : List WriteResult) : Option OnWriteResult :=
  if c.m_state ≠ TcpState.Connected then
    some { connection := c, sent := [], writes := 0, write_dones_run := [] }
  else do
    let c :=
      if c.m_connection_type = TcpConnectionType.TcpConnectionByClient then
        let messages := c.m_write_dones.map Prod.fst
        { c with m_out_buffer := c.m_coder.encode messages c.m_out_buffer }
      else c
    let r ← writeLoop c.m_out_buffer script
    let c :=
      if r.is_write_all then
        let m_fd_event := c.m_fd_event.cancle TriggerEvent.OUT_EVENT
        { c with m_fd_event := m_fd_event,
                 m_event_loop := c.m_event_loop ++ [EpollCall.addEpollEvent m_fd_event] }
      else c
    if c.m_connection_type = TcpConnectionType.TcpConnectionByClient then
      some { connection := { c with m_write_dones := [] }, sent := r.sent,
             writes := r.writes,
             write_dones_run := c.m_write_dones.map fun p => (p.2, p.1) }
    else
      some { connection := c, sent := r.sent, writes := r.writes, write_dones_run := [] }

end TcpConnection

/-! ## IPNetAddr: the validators -/

/-- The C function `isspace` in the "C" locale. -/
def isspace (c : Char) : Bool :=
  c = ' ' || (9 ≤ c.toNat && c.toNat ≤ 13)

/-- The digits that `atoi` reads: it stops at the first character that is not a
decimal digit (the terminating NUL of `c_str()` is one). -/
def atoiDigits : Str → Int → Int
  | [], acc => acc
  | c :: s, acc =>
    if c.isDigit then atoiDigits s (acc * 10 + ((c.toNat : Int) - 48)) else acc

/-- The constant `LONG_MAX` of a 64-bit `long`. -/
def LONG_MAX : Int := 9223372036854775807

/-- The constant `LONG_MIN` of a 64-bit `long`. -/
def LONG_MIN : Int := -9223372036854775808

/-- The C function `strtol(s, NULL, 10)`: leading white space is skipped, then an
optional sign and the decimal digits are read; with no digit the result is 0, and a
value outside the range of `long` is replaced by `LONG_MAX` or `LONG_MIN`. -/
def strtol (s : Str) : Int :=
  let value : Int :=
    match s.dropWhile isspace with
    | '-' :: t => - atoiDigits t 0
    | '+' :: t => atoiDigits t 0
    | t => atoiDigits t 0
  max LONG_MIN (min LONG_MAX value)

/-- The C function `std::atoi`, as the C library of the platform defines it:
`(int) strtol(s, NULL, 10)`. A number that does not fit an `int` keeps its low 32 bits
(`atoi("4294967376")` is 80). -/
def atoi (s : Str) : Int := toInt (strtol s)

/-- The constant `INADDR_NONE`. -/
def INADDR_NONE : Nat := 4294967295

namespace IPNetAddr

/-- The static method `IPNetAddr::CheckValid(addr)`. -/
def CheckValid (addr : Str) : Bool :=
  match find_first_of addr ":".toList with
  | none => false
  | some i =>
    let ip := substr addr 0 i
    let port := substr addr (i + 1) (addr.length - i - 1)
    if ip.isEmpty || port.isEmpty then false
    else
      let iport := atoi port
      if iport ≤ 0 ∨ iport > 65536 then false
      else true

/-- The constructor `IPNetAddr(const std::string &ip, uint16_t port)`: the argument is
converted to the 16 bits of the parameter. -/
def ofIpPort (ip : Str) (port : Int) : IPNetAddr :=
  { m_ip := ip, m_port := port % 2 ^ 16 }

/-- The method `checkValid()`. The libc function `inet_addr` is a parameter. `m_port`
is the value the member holds; its declared type is in `net_addr.h`, which is not among
the sources. -/
def checkValid (inet_addr : Str → Nat) (a : IPNetAddr) : Bool :=
  if a.m_ip.isEmpty then false
  else if a.m_port < 0 ∨ a.m_port > 65536 then false
  else if inet_addr a.m_ip = INADDR_NONE then false
  else true

end IPNetAddr

/-! ## TcpServer: the client set -/

/-- A `TcpConnection::s_ptr` held in the client set: null, or a connection together
with the number of owners other than the set. -/
structure ConnectionPtr where
  target : Option TcpConnection
  other_owners : Nat

/-- The method `use_count()` of a pointer held in the client set. -/
def ConnectionPtr.use_count (p : ConnectionPtr) : Nat :=
  match p.target with
  | none => 0
  | some _ => p.other_owners + 1

/-- The part of the class `TcpServer` that the cleanup timer works on: the entries of
`m_client`, in iteration order. -/
structure TcpServer where
  m_client : List ConnectionPtr

namespace TcpServer

/-- The loop of `ClearClientTimerFunc()` from the iterator at the head of `entries`. -/
def clearClientLoop : List ConnectionPtr → List ConnectionPtr
  | [] => []
  | it :: rest =>
    match it.target with
    | some connection =>
      if it.use_count > 0 ∧ connection.getState = TcpState.Closed then
        clearClientLoop rest
      else it :: clearClientLoop rest
    | none => it :: clearClientLoop rest

/-- The method `ClearClientTimerFunc()`. -/
def ClearClientTimerFunc (s : TcpServer) : TcpServer :=
  { s with m_client := clearClientLoop s.m_client }

end TcpServer

/-! ## Concrete values for the examples -/

/-- The handler of scenario S1 under a chosen service name: one method `say`, which
copies its request to its response and runs the closure; parsing and serializing are
the identity. -/
def echoService (full_name : Str) : Service :=
  { full_name := full_name,
    FindMethodByName := fun name =>
      if name = "say".toList then some { name := name } else none,
    ParseFromString := fun _ data => some data,
    CallMethod := fun _ _ req_msg => some req_msg,
    SerializeToString := fun _ rsp_msg => (true, rsp_msg) }

/-- A codec for the examples: `decode` hands out the messages `decoded` and leaves the
in-buffer as it is; `encode` writes the msg-id of each message, one byte per
character, to the out-buffer. -/
def sampleCoder (decoded : List TinyPBProtocol) : Coder :=
  { encode := fun messages out_buffer =>
      messages.foldl (fun b m =>
        (b.writeToBuffer (m.m_msg_id.map fun ch => Fin.ofNat ch.toNat)
          m.m_msg_id.length).getD b) out_buffer,
    decode := fun in_buffer => (decoded, in_buffer) }

/-- Four distinct non-zero error codes for the examples. -/
def sampleCodes : ErrorCodes :=
  { ERROR_PARSE_SERVICE_NAME := 1, ERROR_SERVICE_NOT_FOUND := 2,
    ERROR_FAILED_DESERIALIZE := 3, ERROR_FAILED_SERIALIZE := 4 }

/-- A connection for the examples, of a chosen state and role, whose codec decodes
`decoded`: empty buffers of capacity 8, read interest armed, nothing queued. -/
def sampleConnection (state : TcpState) (type : TcpConnectionType)
    (decoded : List TinyPBProtocol) : TcpConnection :=
  { m_event_loop := [],
    m_local_addr := { m_ip := "127.0.0.1".toList, m_port := 12345 },
    m_peer_addr := { m_ip := "127.0.0.1".toList, m_port := 40000 },
    m_state := state,
    m_fd := 5,
    m_connection_type := type,
    m_in_buffer := ⟨0, 0, 8, List.replicate 8 0⟩,
    m_out_buffer := ⟨0, 0, 8, List.replicate 8 0⟩,
    m_fd_event := { read_callback := some FdCallback.onRead, write_callback := none },
    m_coder := sampleCoder decoded,
    m_write_dones := [],
    m_read_dones := [],
    m_shut_rdwr := false }

/-- A request for the examples. -/
def sampleRequest (msg_id method_name : String) : TinyPBProtocol :=
  { TinyPBProtocol.empty with
    m_msg_id := msg_id.toList, m_method_name := method_name.toList,
    m_pb_data := "hi".toList }

/-- A CLIENT connection for the examples (scenario S5): callbacks 11 and 22 wait for
the replies to msg-ids `1` and `2`; the replies decoded are `2`, an unknown `9`, a
second `2`, and `1`. -/
def sampleClient : TcpConnection :=
  ((sampleConnection .Connected .TcpConnectionByClient
      [sampleRequest "2" "B.m", sampleRequest "9" "B.m", sampleRequest "2" "B.m",
       sampleRequest "1" "A.m"]).pushReadMessage "1".toList 11).pushReadMessage
    "2".toList 22

/-- Whether a call on the event loop is a `deleteEpollEvent`. -/
def EpollCall.isDelete : EpollCall → Bool
  | EpollCall.deleteEpollEvent _ => true
  | EpollCall.addEpollEvent _ => false

/-- A stand-in for the libc function `inet_addr` in the examples: it knows the
loopback address and answers `INADDR_NONE` for every other string. -/
def sampleInetAddr (ip : Str) : Nat :=
  if ip = "127.0.0.1".toList then 16777343 else INADDR_NONE

/-- Whether an entry of the client set is a connection in state `Closed`. -/
def ConnectionPtr.isClosed (p : ConnectionPtr) : Bool :=
  match p.target with
  | some connection => connection.m_state = TcpState.Closed
  | none => false

/-- A connected SERVER connection for the examples after `reply` of a response with
msg-id `abc`: the example codec has put the bytes 97, 98, 99 into the out-buffer, and
write interest is armed. -/
def sampleReplied : TcpConnection :=
  (sampleConnection .Connected .TcpConnectionByServer []).reply
    [sampleRequest "abc" "Echo.say"]

/-- A connected CLIENT connection for the examples after `TcpClient::writeMessage`: one
pair is enqueued by `pushSendMessage`, the message with msg-id `7` and the on-sent
callback 77, and `listenWrite` has armed write interest. -/
def sampleSender : TcpConnection :=
  ((sampleConnection .Connected .TcpConnectionByClient []).pushSendMessage
    (sampleRequest "7" "A.m") 77).listenWrite

/-! ## TcpBuffer: lemmas -/

/-- A run on a buffer of capacity 4 that compacts once and grows once. -/
theorem runCalls_example : (TcpBuffer.new 4).bind (fun b => runCalls b
    [.write [1, 2, 3], .read 2, .write [4, 5, 6, 7], .read 10, .read 1]) =
    some ([[1, 2], [3, 4, 5, 6, 7], []],
      { m_read_index := 0, m_write_index := 0, m_size := 4,
        m_buffer := List.replicate 7 0 }) := by decide

namespace TcpBuffer

theorem memcpy_eq_some {dst src : List Byte} {doff soff count : Int}
    (h0 : 0 ≤ count) (h1 : 0 ≤ doff) (h2 : 0 ≤ soff)
    (h3 : doff + count ≤ dst.length) (h4 : soff + count ≤ src.length) :
    memcpy dst doff src soff count =
      some (dst.take doff.toNat ++ (src.drop soff.toNat).take count.toNat ++
        dst.drop (doff + count).toNat) := by
  unfold memcpy
  rw [if_pos ⟨h0, h1, h2, h3, h4⟩]

theorem vectorOfSize_eq_some {n : Int} (h : 0 ≤ n) :
    vectorOfSize n = some (List.replicate n.toNat 0) := by
  unfold vectorOfSize
  rw [if_pos h]

/-- The method `adjustBuffer` on a buffer satisfying the index invariant: it returns,
keeps the invariant, the capacity and the readable bytes. -/
theorem adjustBuffer_spec (b : TcpBuffer) (h : b.IndexInv) :
    ∃ b', b.adjustBuffer = some b' ∧ b'.IndexInv ∧
      b'.m_buffer.length = b.m_buffer.length ∧ b'.readableBytes = b.readableBytes ∧
      b'.readAble = b.readAble := by
  obtain ⟨h0, h1, h2⟩ := h
  unfold adjustBuffer
  by_cases hlt : b.m_read_index < ((b.m_buffer.length / 3 : Nat) : Int)
  · rw [if_pos hlt]
    exact ⟨b, rfl, ⟨h0, h1, h2⟩, rfl, rfl, rfl⟩
  · rw [if_neg hlt]
    have hv : vectorOfSize (b.m_buffer.length : Int) =
        some (List.replicate b.m_buffer.length 0) := by
      rw [vectorOfSize_eq_some (by omega)]; simp
    have hm : memcpy (List.replicate b.m_buffer.length 0) 0 b.m_buffer b.m_read_index
        b.readAble = some (List.take (0 : Int).toNat (List.replicate b.m_buffer.length 0) ++
          (b.m_buffer.drop b.m_read_index.toNat).take b.readAble.toNat ++
          (List.replicate b.m_buffer.length 0).drop (0 + b.readAble).toNat) := by
      apply memcpy_eq_some <;> (try simp only [readAble, List.length_replicate]) <;> omega
    simp only [hv, hm, Option.bind_eq_bind, Option.some_bind]
    have hlen : ((b.m_buffer.drop b.m_read_index.toNat).take b.readAble.toNat).length =
        b.readAble.toNat := by
      rw [List.length_take, List.length_drop]; simp only [readAble]; omega
    refine ⟨_, rfl, ?_, ?_, ?_, ?_⟩
    · simp only [IndexInv, List.length_append, hlen, List.length_drop, List.length_take,
        List.length_replicate, readAble]
      omega
    · simp only [List.length_append, hlen, List.length_drop, List.length_take,
        List.length_replicate, readAble]
      omega
    · simp only [readableBytes, readAble, Int.toNat_zero, List.take_zero, List.nil_append,
        List.drop_zero, zero_add, sub_zero]
      rw [List.take_append_of_le_length (by rw [List.length_take, List.length_drop]; omega)]
      rw [List.take_take, min_self]
    · simp [readAble]

theorem length_readableBytes (b : TcpBuffer) (h : b.IndexInv) :
    b.readableBytes.length = b.readAble.toNat := by
  obtain ⟨h0, h1, h2⟩ := h
  simp only [readableBytes, readAble, List.length_take, List.length_drop]
  omega

/-- The method `resizeBuffer` with a non-negative size on a buffer satisfying the index
invariant: it returns, the capacity is the new size, and the readable bytes are the
first `new_size` of those readable before. -/
theorem resizeBuffer_spec (b : TcpBuffer) (h : b.IndexInv) (new_size : Int)
    (hn : 0 ≤ new_size) :
    ∃ b', b.resizeBuffer new_size = some b' ∧ b'.IndexInv ∧
      (b'.m_buffer.length : Int) = new_size ∧
      b'.readableBytes = b.readableBytes.take new_size.toNat ∧
      b'.m_read_index = 0 ∧ b'.m_write_index = min new_size b.readAble := by
  obtain ⟨h0, h1, h2⟩ := h
  unfold resizeBuffer
  have hm : memcpy (List.replicate new_size.toNat 0) 0 b.m_buffer b.m_read_index
      (min new_size b.readAble) =
      some (List.take (0 : Int).toNat (List.replicate new_size.toNat 0) ++
        (b.m_buffer.drop b.m_read_index.toNat).take (min new_size b.readAble).toNat ++
        (List.replicate new_size.toNat 0).drop (0 + min new_size b.readAble).toNat) := by
    apply memcpy_eq_some <;> (try simp only [readAble, List.length_replicate]) <;> omega
  simp only [vectorOfSize_eq_some hn, hm, Option.bind_eq_bind, Option.some_bind]
  have hcnt : (min new_size b.readAble).toNat = min new_size.toNat b.readAble.toNat := by
    simp only [readAble]; omega
  have hlen : ((b.m_buffer.drop b.m_read_index.toNat).take
      (min new_size b.readAble).toNat).length = (min new_size b.readAble).toNat := by
    rw [List.length_take, List.length_drop]; simp only [readAble]; omega
  refine ⟨_, rfl, ?_, ?_, ?_, rfl, zero_add _⟩
  · simp only [IndexInv, List.length_append, hlen, List.length_drop, List.length_take,
      List.length_replicate, readAble]
    omega
  · simp only [List.length_append, hlen, List.length_drop, List.length_take,
      List.length_replicate, readAble]
    omega
  · simp only [readableBytes, readAble, Int.toNat_zero, List.take_zero, List.nil_append,
      List.drop_zero, zero_add, sub_zero]
    rw [List.take_append_of_le_length (by
      rw [List.length_take, List.length_drop]; omega)]
    rw [List.take_take, min_self, List.take_take]
    simp only [readAble] at hcnt
    rw [hcnt]

/-- Copying `size` bytes at the write index and advancing it appends them to the
readable bytes. -/
theorem readableBytes_append (b : TcpBuffer) (h : b.IndexInv) (buf : List Byte)
    (size : Int) (hs : 0 ≤ size) (hb : size ≤ buf.length) :
    readableBytes { b with
        m_buffer := b.m_buffer.take b.m_write_index.toNat ++
          (buf.drop (0 : Int).toNat).take size.toNat ++
          b.m_buffer.drop (b.m_write_index + size).toNat,
        m_write_index := b.m_write_index + size } =
      b.readableBytes ++ buf.take size.toNat := by
  obtain ⟨h0, h1, h2⟩ := h
  simp only [readableBytes, readAble, Int.toNat_zero, List.drop_zero]
  have hA : (b.m_buffer.take b.m_write_index.toNat).length = b.m_write_index.toNat := by
    rw [List.length_take]; omega
  rw [List.append_assoc, List.drop_append_of_le_length (by omega)]
  have hD : ((b.m_buffer.take b.m_write_index.toNat).drop b.m_read_index.toNat).length =
      (b.m_write_index - b.m_read_index).toNat := by
    rw [List.length_drop, hA]; omega
  have hS : (buf.take size.toNat).length = size.toNat := by
    rw [List.length_take]; omega
  have hsum : (b.m_write_index + size - b.m_read_index).toNat =
      ((b.m_buffer.take b.m_write_index.toNat).drop b.m_read_index.toNat ++
        buf.take size.toNat).length := by
    rw [List.length_append, hD, hS]; omega
  rw [← List.append_assoc, hsum, List.take_left]
  congr 1
  rw [List.take_drop]
  congr 2
  omega

theorem length_memcpy_result (dst src : List Byte) (doff count : Int) (k : Nat)
    (h0 : 0 ≤ count) (h1 : 0 ≤ doff) (h3 : doff + count ≤ dst.length)
    (h4 : count.toNat ≤ (src.drop k).length) :
    (dst.take doff.toNat ++ (src.drop k).take count.toNat ++
      dst.drop (doff + count).toNat).length = dst.length := by
  simp only [List.length_append, List.length_take, List.length_drop] at h4 ⊢
  omega

theorem intInRange_eq_some {x : Int} (h0 : INT_MIN ≤ x) (h1 : x ≤ INT_MAX) :
    intInRange x = some x := by
  unfold intInRange
  rw [if_pos ⟨h0, h1⟩]

theorem intInRange_eq_none {x : Int} (h : INT_MAX < x) : intInRange x = none := by
  unfold intInRange
  rw [if_neg (by intro hx; omega)]

/-- The method `writeToBuffer` on a buffer satisfying the index invariant, with
`0 ≤ size` bytes available behind `buf`, when the bytes fit or the new capacity
`⌊1.5 * (w + size)⌋` is in the range of `int`: it returns, keeps the invariant, appends
the bytes to the readable ones, grows the capacity to `⌊1.5 * (w + size)⌋` exactly when
the bytes do not fit, and leaves the write index at most `size` further. -/
theorem writeToBuffer_spec (b : TcpBuffer) (h : b.IndexInv) (buf : List Byte)
    (size : Int) (hs : 0 ≤ size) (hb : size ≤ buf.length)
    (hfit : size > b.writeAble → 3 * (b.m_write_index + size) / 2 ≤ INT_MAX) :
    ∃ b', b.writeToBuffer buf size = some b' ∧ b'.IndexInv ∧
      b'.readableBytes = b.readableBytes ++ buf.take size.toNat ∧
      (b'.m_buffer.length : Int) =
        (if size > b.writeAble then 3 * (b.m_write_index + size) / 2
        else (b.m_buffer.length : Int)) ∧
      b'.m_write_index ≤ b.m_write_index + size := by
  have hinv := h
  obtain ⟨h0, h1, h2⟩ := h
  unfold writeToBuffer
  by_cases hgt : size > b.writeAble
  · rw [if_pos hgt, if_pos hgt]
    have hmax := hfit hgt
    simp only [INT_MAX] at hmax
    have hdiv : Int.tdiv (3 * (b.m_write_index + size)) 2 =
        3 * (b.m_write_index + size) / 2 := by
      rw [Int.tdiv_eq_ediv] <;> omega
    have hsum : intInRange (b.m_write_index + size) = some (b.m_write_index + size) :=
      intInRange_eq_some (by simp only [INT_MIN]; omega) (by simp only [INT_MAX]; omega)
    have hnew : intInRange (Int.tdiv (3 * (b.m_write_index + size)) 2) =
        some (3 * (b.m_write_index + size) / 2) := by
      rw [hdiv]
      exact intInRange_eq_some (by simp only [INT_MIN]; omega)
        (by simp only [INT_MAX]; omega)
    obtain ⟨b1, e1, inv1, len1, rd1, r1, w1⟩ :=
      resizeBuffer_spec b hinv (3 * (b.m_write_index + size) / 2) (by omega)
    have hw1 : b1.m_write_index = b.readAble := by
      rw [w1]; simp only [readAble]; omega
    have hm := @memcpy_eq_some b1.m_buffer buf b1.m_write_index 0 size hs
      (by rw [hw1]; simp only [readAble]; omega) (le_refl _)
      (by rw [hw1, len1]; simp only [readAble]; omega) (by omega)
    simp only [hsum, hnew, e1, hm, Option.bind_eq_bind, Option.some_bind]
    have hl := length_memcpy_result b1.m_buffer buf b1.m_write_index size
      (0 : Int).toNat hs (by rw [hw1]; simp only [readAble]; omega)
      (by rw [hw1, len1]; simp only [readAble]; omega)
      (by simp only [Int.toNat_zero, List.drop_zero]; omega)
    refine ⟨_, rfl, ?_, ?_, ?_, ?_⟩
    · simp only [IndexInv]
      rw [hl, r1, hw1, len1]
      simp only [readAble]
      omega
    · rw [readableBytes_append b1 inv1 buf size hs hb, rd1]
      rw [List.take_of_length_le]
      rw [length_readableBytes b hinv]
      simp only [readAble]; omega
    · rw [hl, len1]
    · show b1.m_write_index + size ≤ b.m_write_index + size
      rw [hw1]
      simp only [readAble]
      omega
  · rw [if_neg hgt, if_neg hgt]
    simp only [writeAble] at hgt
    have hm := @memcpy_eq_some b.m_buffer buf b.m_write_index 0 size hs
      (by omega) (le_refl _) (by omega) (by omega)
    simp only [hm, Option.bind_eq_bind, Option.some_bind]
    have hl := length_memcpy_result b.m_buffer buf b.m_write_index size
      (0 : Int).toNat hs (by omega) (by omega)
      (by simp only [Int.toNat_zero, List.drop_zero]; omega)
    refine ⟨_, rfl, ?_, ?_, ?_, le_refl _⟩
    · simp only [IndexInv, hl]
      omega
    · exact readableBytes_append b hinv buf size hs hb
    · rw [hl]

/-- The method `writeToBuffer` does not return when the bytes do not fit and the new
capacity `⌊1.5 * (w + size)⌋` is beyond `INT_MAX`. -/
theorem writeToBuffer_overflow (b : TcpBuffer) (h : b.IndexInv) (buf : List Byte)
    (size : Int) (_hs : 0 ≤ size) (hgt : size > b.writeAble)
    (hover : INT_MAX < 3 * (b.m_write_index + size) / 2) :
    b.writeToBuffer buf size = none := by
  obtain ⟨h0, h1, h2⟩ := h
  unfold writeToBuffer
  rw [if_pos hgt]
  by_cases hsum : b.m_write_index + size ≤ INT_MAX
  · have hdiv : Int.tdiv (3 * (b.m_write_index + size)) 2 =
        3 * (b.m_write_index + size) / 2 := by
      rw [Int.tdiv_eq_ediv] <;> omega
    rw [intInRange_eq_some (by simp only [INT_MIN]; omega) hsum]
    simp only [Option.bind_eq_bind, Option.some_bind]
    rw [hdiv, intInRange_eq_none hover]
    rfl
  · rw [intInRange_eq_none (by omega)]
    rfl

/-- The write index after `adjustBuffer` is not beyond the one before. -/
theorem adjustBuffer_write_index_le (b b' : TcpBuffer) (h0 : 0 ≤ b.m_read_index)
    (e : b.adjustBuffer = some b') : b'.m_write_index ≤ b.m_write_index := by
  unfold adjustBuffer at e
  split at e
  · cases e
    exact le_refl _
  · simp only [Option.bind_eq_bind, Option.bind_eq_some, Option.some.injEq] at e
    obtain ⟨_, _, _, _, rfl⟩ := e
    simp only [readAble]
    omega

/-- The write index after `readFromBuffer` is not beyond the one before. -/
theorem readFromBuffer_write_index_le (b b' : TcpBuffer) (h : b.IndexInv)
    (re out : List Byte) (size : Int) (hs : 0 ≤ size)
    (e : b.readFromBuffer re size = some (out, b')) :
    b'.m_write_index ≤ b.m_write_index := by
  obtain ⟨h0, h1, h2⟩ := h
  unfold readFromBuffer at e
  split at e
  · cases e
    exact le_refl _
  · simp only [Option.bind_eq_bind, Option.bind_eq_some, Option.some.injEq,
      Prod.mk.injEq] at e
    obtain ⟨_, _, _, _, b2, e2, _, rfl⟩ := e
    have hle := adjustBuffer_write_index_le _ b2 (by
      simp only [readAble]
      split <;> omega) e2
    exact hle

/-- The method `readFromBuffer` with `0 ≤ size` on a buffer satisfying the index
invariant: it returns and keeps the invariant and the capacity. With nothing readable
it leaves `re` and the buffer as they are; otherwise `re` becomes the first
`min size readable` readable bytes, which leave the readable region. -/
theorem readFromBuffer_spec (b : TcpBuffer) (h : b.IndexInv) (re : List Byte)
    (size : Int) (hs : 0 ≤ size) :
    ∃ out b', b.readFromBuffer re size = some (out, b') ∧ b'.IndexInv ∧
      b'.m_buffer.length = b.m_buffer.length ∧
      out = (if b.readAble = 0 then re else b.readableBytes.take size.toNat) ∧
      b'.readableBytes = b.readableBytes.drop size.toNat := by
  have hinv := h
  obtain ⟨h0, h1, h2⟩ := h
  unfold readFromBuffer
  by_cases hz : b.readAble = 0
  · rw [if_pos hz, if_pos hz]
    refine ⟨re, b, rfl, hinv, rfl, rfl, ?_⟩
    have hl := length_readableBytes b hinv
    rw [hz] at hl
    rw [List.drop_of_length_le (by rw [hl]; simp)]
    exact List.eq_nil_of_length_eq_zero (by rw [hl]; rfl)
  · rw [if_neg hz, if_neg hz]
    simp only [readAble] at hz
    obtain ⟨n, hn, hn0, hnle, hnat⟩ : ∃ n : Int,
        (if b.readAble > size then size else b.readAble) = n ∧ 0 ≤ n ∧
        n ≤ b.readAble ∧ n.toNat = min size.toNat b.readAble.toNat := by
      refine ⟨_, rfl, ?_, ?_, ?_⟩ <;> simp only [readAble] <;> split <;> omega
    simp only [hn]
    have hm : memcpy (List.replicate n.toNat 0) 0 b.m_buffer b.m_read_index n =
        some (List.take (0 : Int).toNat (List.replicate n.toNat 0) ++
          (b.m_buffer.drop b.m_read_index.toNat).take n.toNat ++
          (List.replicate n.toNat 0).drop (0 + n).toNat) := by
      simp only [readAble] at hnle
      apply memcpy_eq_some <;> (try simp only [List.length_replicate]) <;> omega
    have inv1 : IndexInv { b with m_read_index := b.m_read_index + n } := by
      simp only [readAble] at hnle
      simp only [IndexInv]; omega
    obtain ⟨b2, e2, inv2, len2, rd2, -⟩ := adjustBuffer_spec _ inv1
    simp only [vectorOfSize_eq_some hn0, hm, e2, Option.bind_eq_bind, Option.some_bind]
    simp only [readAble] at hnle hnat
    refine ⟨_, _, rfl, inv2, len2, ?_, ?_⟩
    · simp only [readableBytes, readAble, Int.toNat_zero, List.take_zero, List.nil_append,
        zero_add, List.drop_replicate, Nat.sub_self, List.replicate_zero, List.append_nil,
        List.take_take]
      rw [hnat]
    · rw [rd2]
      simp only [readableBytes, readAble]
      rw [List.drop_take, List.drop_drop]
      by_cases hc : b.readAble > size
      · rw [if_pos hc] at hn
        subst hn
        congr 1
        · omega
        · congr 1
          omega
      · rw [if_neg hc] at hn
        simp only [readAble] at hn hc
        have e1 : (b.m_write_index - (b.m_read_index + n)).toNat = 0 := by omega
        have e2 : (b.m_write_index - b.m_read_index).toNat - size.toNat = 0 := by omega
        rw [e1, e2, List.take_zero, List.take_zero]

/-- The method `moveWriteIndex` with `0 ≤ size` (the sum below `2 ^ 64`, as it is for
`int` operands) on a buffer satisfying the index invariant returns and keeps the
invariant. -/
theorem moveWriteIndex_inv (b : TcpBuffer) (h : b.IndexInv) (size : Int) (hs : 0 ≤ size)
    (hsz : b.m_write_index + size < 2 ^ 64) :
    ∃ b', b.moveWriteIndex size = some b' ∧ b'.IndexInv := by
  have hinv := h
  obtain ⟨h0, h1, h2⟩ := h
  unfold moveWriteIndex
  simp only
  split
  · exact ⟨b, rfl, hinv⟩
  · rename_i hj
    have inv1 : IndexInv { b with m_write_index := (b.m_write_index + size) % 2 ^ 64 } := by
      simp only [IndexInv] at hj ⊢
      rw [Int.emod_eq_of_lt (by omega) hsz] at hj ⊢
      omega
    obtain ⟨b2, e2, inv2, -⟩ := adjustBuffer_spec _ inv1
    exact ⟨b2, e2, inv2⟩

end TcpBuffer

/-- A run from a buffer satisfying the index invariant. If every write keeps the
capacity in the range of `int`, the run returns, and the vectors returned by the reads
followed by the bytes readable at the end are the bytes readable at the start followed
by the bytes written. Otherwise the run does not return. Every write keeps the capacity
in range when write index and bytes written together are at most 1431655765. -/
theorem runCalls_spec (cs : List BufferCall) :
    ∀ b : TcpBuffer, b.IndexInv →
      (growthsFit b cs = true →
        ∃ outs b', runCalls b cs = some (outs, b') ∧ b'.IndexInv ∧
          outs.flatten ++ b'.readableBytes = b.readableBytes ++ bytesWritten cs) ∧
      (growthsFit b cs = false → runCalls b cs = none) ∧
      (b.m_write_index + ((bytesWritten cs).length : Int) ≤ 1431655765 →
        growthsFit b cs = true) := by
  induction cs with
  | nil =>
    intro b h
    refine ⟨fun _ => ⟨[], b, rfl, h, by simp [bytesWritten]⟩, ?_, fun _ => rfl⟩
    intro hf
    simp [growthsFit] at hf
  | cons c cs ih =>
    intro b h
    cases c with
    | write bytes =>
      by_cases hfit : (bytes.length : Int) > b.writeAble →
          3 * (b.m_write_index + (bytes.length : Int)) / 2 ≤ INT_MAX
      · obtain ⟨b1, e1, inv1, rd1, -, wle⟩ :=
          TcpBuffer.writeToBuffer_spec b h bytes bytes.length (by omega) (le_refl _) hfit
        obtain ⟨ih1, ih2, ih3⟩ := ih b1 inv1
        have hgf : b.growthFits bytes.length = true := by
          simp only [TcpBuffer.growthFits]
          exact decide_eq_true hfit
        have hg : growthsFit b (BufferCall.write bytes :: cs) = growthsFit b1 cs := by
          simp only [growthsFit, hgf, e1, Bool.true_and]
        rw [hg]
        refine ⟨?_, ?_, ?_⟩
        · intro hf
          obtain ⟨outs, b2, e2, inv2, rd2⟩ := ih1 hf
          refine ⟨outs, b2, ?_, inv2, ?_⟩
          · simp only [runCalls, e1, e2, Option.bind_eq_bind, Option.some_bind]
          · rw [rd2, rd1]
            simp [bytesWritten]
        · intro hf
          simp only [runCalls, e1, ih2 hf, Option.bind_eq_bind, Option.some_bind]
        · intro hb
          apply ih3
          simp only [bytesWritten, List.length_append, Nat.cast_add] at hb
          omega
      · have hfit' := hfit
        simp only [Classical.not_imp, not_le] at hfit'
        have hnone := TcpBuffer.writeToBuffer_overflow b h bytes bytes.length
          (by omega) hfit'.1 hfit'.2
        have hgf : b.growthFits bytes.length = false := by
          simp only [TcpBuffer.growthFits]
          exact decide_eq_false hfit
        have hg : growthsFit b (BufferCall.write bytes :: cs) = false := by
          simp only [growthsFit, hgf, Bool.false_and]
        rw [hg]
        refine ⟨fun hf => absurd hf (by simp), fun _ => ?_, fun hb => ?_⟩
        · simp only [runCalls, hnone, Option.bind_eq_bind, Option.none_bind]
        · exfalso
          apply hfit
          intro _
          obtain ⟨h0, h1, h2⟩ := h
          simp only [bytesWritten, List.length_append, Nat.cast_add] at hb
          simp only [INT_MAX]
          omega
    | read n =>
      obtain ⟨out, b1, e1, inv1, -, ho, rd1⟩ :=
        TcpBuffer.readFromBuffer_spec b h [] n (by omega)
      have wle := TcpBuffer.readFromBuffer_write_index_le b b1 h [] out n (by omega) e1
      obtain ⟨ih1, ih2, ih3⟩ := ih b1 inv1
      have hg : growthsFit b (BufferCall.read n :: cs) = growthsFit b1 cs := by
        simp [growthsFit, e1]
      rw [hg]
      refine ⟨?_, ?_, ?_⟩
      · intro hf
        obtain ⟨outs, b2, e2, inv2, rd2⟩ := ih1 hf
        refine ⟨out :: outs, b2, ?_, inv2, ?_⟩
        · simp only [runCalls, e1, e2, Option.bind_eq_bind, Option.some_bind]
        · have hout : out = b.readableBytes.take n := by
            rw [ho]
            split
            · rename_i hz
              have hl := TcpBuffer.length_readableBytes b h
              rw [hz] at hl
              have hnil : b.readableBytes = [] :=
                List.eq_nil_of_length_eq_zero (by rw [hl]; rfl)
              rw [hnil]
              simp
            · simp
          rw [List.flatten_cons, List.append_assoc, rd2, rd1, hout]
          simp only [Int.toNat_ofNat, bytesWritten]
          rw [← List.append_assoc, List.take_append_drop]
      · intro hf
        simp only [runCalls, e1, ih2 hf, Option.bind_eq_bind, Option.some_bind,
          Option.none_bind]
      · intro hb
        apply ih3
        simp only [bytesWritten] at hb
        omega

/-- A freshly constructed `TcpBuffer` is empty: it satisfies the index invariant with
both indices 0, and its capacity is the size asked for. -/
theorem TcpBuffer.new_empty (size : Int) (b0 : TcpBuffer)
    (h : TcpBuffer.new size = some b0) :
    b0.IndexInv ∧ b0.readAble = 0 ∧ b0.m_write_index = 0 ∧
      (b0.m_buffer.length : Int) = size := by
  unfold TcpBuffer.new at h
  split at h
  · cases h
    refine ⟨?_, ?_, rfl, ?_⟩
    · simp [TcpBuffer.IndexInv]
    · simp [TcpBuffer.readAble]
    · simp only [List.length_replicate]
      omega
  · cases h

/-- Claim C1, as stated, fails for a sequence with a large write. On the freshly
constructed buffer of capacity 4 the one call `writeToBuffer` of 1431655766 bytes
does not fit; its new capacity `⌊1.5 * 1431655766⌋ = 2147483649` is beyond `INT_MAX`,
so the call does not return and no byte is kept. -/
theorem readWrite_large_write_does_not_return :
    (1431655766 : Int) ≤ INT_MAX ∧
    (TcpBuffer.new 4).bind (fun b0 =>
      runCalls b0 [BufferCall.write (List.replicate 1431655766 0)]) = none := by
  refine ⟨by decide, ?_⟩
  have hnew : TcpBuffer.new 4 = some ⟨0, 0, 4, List.replicate 4 0⟩ := by decide
  have hinv : TcpBuffer.IndexInv ⟨0, 0, 4, List.replicate 4 0⟩ := by decide
  have hnone := TcpBuffer.writeToBuffer_overflow ⟨0, 0, 4, List.replicate 4 0⟩ hinv
    (List.replicate 1431655766 0) 1431655766 (by norm_num)
    (by simp [TcpBuffer.writeAble]) (by simp [INT_MAX])
  rw [hnew]
  simp only [Option.bind_eq_bind, Option.some_bind, runCalls, List.length_replicate,
    Nat.cast_ofNat, hnone, Option.none_bind]

/-- Claim C1, amended. From an empty `TcpBuffer` (the freshly constructed one of any
capacity, or any buffer that satisfies the index invariant and has nothing readable),
for every finite sequence of `writeToBuffer(bytes)` and `readFromBuffer(out, n)` calls
(`n ≥ 0`, `out` passed in empty): if every write that does not fit in the writable
space computes its new capacity `⌊1.5 * (w + n)⌋` within the range of `int`, the
sequence runs to the end, and the vectors returned by the reads, in order, followed by
the bytes still readable, are exactly the bytes written, in order; otherwise the
sequence does not run to its end. Every new capacity is within the range of `int` when
write index and bytes written are together at most 1431655765. -/
theorem readWrite_preserves_bytes (b0 : TcpBuffer) (cs : List BufferCall)
    (hempty : (∃ size, TcpBuffer.new size = some b0) ∨
      (b0.IndexInv ∧ b0.readAble = 0)) :
    (growthsFit b0 cs = true →
      ∃ outs b', runCalls b0 cs = some (outs, b') ∧
        outs.flatten ++ b'.readableBytes = bytesWritten cs) ∧
    (growthsFit b0 cs = false → runCalls b0 cs = none) ∧
    (b0.m_write_index + ((bytesWritten cs).length : Int) ≤ 1431655765 →
      growthsFit b0 cs = true) := by
  have hb0 : b0.IndexInv ∧ b0.readAble = 0 := by
    rcases hempty with ⟨size, hnew⟩ | h
    · obtain ⟨hinv, hz, -, -⟩ := TcpBuffer.new_empty size b0 hnew
      exact ⟨hinv, hz⟩
    · exact h
  obtain ⟨hinv, hz⟩ := hb0
  obtain ⟨h1, h2, h3⟩ := runCalls_spec cs b0 hinv
  refine ⟨?_, h2, h3⟩
  intro hf
  obtain ⟨outs, b', e, -, hb⟩ := h1 hf
  refine ⟨outs, b', e, ?_⟩
  have hl := TcpBuffer.length_readableBytes b0 hinv
  rw [hz] at hl
  have hnil : b0.readableBytes = [] := List.eq_nil_of_length_eq_zero (by rw [hl]; rfl)
  rw [hb, hnil, List.nil_append]

/-- The conservation theorem on the fresh buffer of capacity 4 with a run that
compacts once and grows once: the reads return 1, 2 and then 3, 4, 5, 6, 7, and
nothing stays readable. -/
theorem readWrite_preserves_bytes_witness :
    TcpBuffer.new 4 = some ⟨0, 0, 4, List.replicate 4 0⟩ ∧
    growthsFit ⟨0, 0, 4, List.replicate 4 0⟩
      [.write [1, 2, 3], .read 2, .write [4, 5, 6, 7], .read 10, .read 1] = true ∧
    (runCalls ⟨0, 0, 4, List.replicate 4 0⟩
      [.write [1, 2, 3], .read 2, .write [4, 5, 6, 7], .read 10, .read 1]).map
        (fun r => (r.1, r.2.readableBytes)) =
      some ([[1, 2], [3, 4, 5, 6, 7], []], []) ∧
    ∃ outs b', runCalls ⟨0, 0, 4, List.replicate 4 0⟩
        [.write [1, 2, 3], .read 2, .write [4, 5, 6, 7], .read 10, .read 1] =
        some (outs, b') ∧
      outs.flatten ++ b'.readableBytes =
        bytesWritten [.write [1, 2, 3], .read 2, .write [4, 5, 6, 7], .read 10, .read 1] :=
  ⟨by decide, by decide, by decide,
    (readWrite_preserves_bytes ⟨0, 0, 4, List.replicate 4 0⟩
      [.write [1, 2, 3], .read 2, .write [4, 5, 6, 7], .read 10, .read 1]
      (Or.inl ⟨4, by decide⟩)).1 (by decide)⟩

/-- Claim C2 (the code breaks it). On the buffer of capacity 10 with read index 0 and
write index 1, which satisfies the index invariant, `moveReadIndex(2)` returns with
read index 2 and write index 1: the invariant no longer holds. -/
theorem moveReadIndex_breaks_indexInv :
    TcpBuffer.IndexInv ⟨0, 1, 10, List.replicate 10 0⟩ ∧
    TcpBuffer.moveReadIndex ⟨0, 1, 10, List.replicate 10 0⟩ 2 =
      some ⟨2, 1, 10, List.replicate 10 0⟩ ∧
    ¬ TcpBuffer.IndexInv ⟨2, 1, 10, List.replicate 10 0⟩ := by
  decide

/-- The same defect one step further: on the buffer of capacity 10 with read index 0
and write index 2, `moveReadIndex(5)` stores read index 5 and calls `adjustBuffer`,
whose `memcpy` is asked for `readAble() = -3` bytes: undefined behaviour. -/
theorem moveReadIndex_undefined_example :
    TcpBuffer.IndexInv ⟨0, 2, 10, List.replicate 10 0⟩ ∧
    TcpBuffer.moveReadIndex ⟨0, 2, 10, List.replicate 10 0⟩ 5 = none := by
  decide

/-! ## RpcDispatcher: lemmas -/

theorem find_first_of_dot_append (a b : Str) (h : '.' ∉ a) :
    find_first_of (a ++ '.' :: b) ['.'] = some a.length := by
  induction a with
  | nil => simp [find_first_of]
  | cons c a ih =>
    have hc : c ≠ '.' := fun e => h (by simp [e])
    have ha : '.' ∉ a := fun e => h (by simp [e])
    simp [find_first_of, hc, ih ha]

theorem find_first_of_dot_none (s : Str) (h : '.' ∉ s) : find_first_of s ['.'] = none := by
  induction s with
  | nil => simp [find_first_of]
  | cons c s ih =>
    have hc : c ≠ '.' := fun e => h (by simp [e])
    have hs : '.' ∉ s := fun e => h (by simp [e])
    simp [find_first_of, hc, ih hs]

/-- A string with a `'.'` splits at its first `'.'`. -/
theorem exists_first_dot (s : Str) (h : '.' ∈ s) :
    ∃ a b : Str, s = a ++ '.' :: b ∧ '.' ∉ a := by
  induction s with
  | nil => simp at h
  | cons c s ih =>
    by_cases hc : c = '.'
    · exact ⟨[], s, by simp [hc], by simp⟩
    · have hs : '.' ∈ s := by
        rcases List.mem_cons.mp h with e | e
        · exact absurd e.symm hc
        · exact e
      obtain ⟨a, b, e, ha⟩ := ih hs
      refine ⟨c :: a, b, by simp [e], ?_⟩
      intro hm
      rcases List.mem_cons.mp hm with e' | e'
      · exact hc e'.symm
      · exact ha e'

namespace RpcDispatcher

theorem parseServiceFullName_append (a b s0 m0 : Str) (h : '.' ∉ a) :
    parseServiceFullName (a ++ '.' :: b) s0 m0 = (true, a, b) := by
  have hd : ".".toList = ['.'] := rfl
  unfold parseServiceFullName
  rw [hd, find_first_of_dot_append a b h]
  have hne : (a ++ '.' :: b).isEmpty = false := by
    cases a <;> rfl
  simp only [hne, Bool.false_eq_true, if_false, substr, List.drop_zero]
  rw [List.take_left]
  have hdrop : List.drop (a.length + 1) (a ++ '.' :: b) = b := by
    rw [← List.drop_drop, List.drop_left]
    rfl
  rw [hdrop, List.take_of_length_le]
  simp only [List.length_append, List.length_cons]
  omega

theorem parseServiceFullName_no_dot (s s0 m0 : Str) (h : '.' ∉ s) :
    parseServiceFullName s s0 m0 = (false, s0, m0) := by
  have hd : ".".toList = ['.'] := rfl
  unfold parseServiceFullName
  rw [hd, find_first_of_dot_none s h]
  split <;> rfl

end RpcDispatcher

/-! ## StdMap: lemmas -/

namespace StdMap

theorem find_erase {V : Type} (m : StdMap V) (k k' : Str) :
    find (erase m k) k' = if k' = k then none else find m k' := by
  induction m with
  | nil => simp [erase, find]
  | cons e m ih =>
    obtain ⟨ke, v⟩ := e
    by_cases h2 : k' = k
    · subst h2
      simp only [if_true] at ih
      by_cases h1 : ke = k'
      · simp [erase, find, h1, ih]
      · simp [erase, find, h1, ih]
    · simp only [if_neg h2] at ih
      by_cases h1 : ke = k
      · have h3 : ¬ k = k' := fun e => h2 e.symm
        simp [erase, find, h1, h2, h3, ih]
      · by_cases h3 : ke = k'
        · simp [erase, find, h1, h2, h3]
        · simp [erase, find, h1, h2, h3, ih]

theorem find_assign_self {V : Type} (m : StdMap V) (k : Str) (v : V) :
    find (assign m k v) k = some v := by
  simp [assign, find]

theorem find_assign_other {V : Type} (m : StdMap V) (k k' : Str) (v : V) (h : k' ≠ k) :
    find (assign m k v) k' = find m k' := by
  have h' : ¬ k = k' := fun e => h e.symm
  simp [assign, find, h', find_erase, h]

end StdMap

/-! ## RpcDispatcher: theorems -/

namespace RpcDispatcher

/-- Claim C6. For every full name with at least one `'.'`, `parseServiceFullName`
returns `true`; the service name is the text before the first `'.'` and the method
name all the text after it: the service name has no `'.'`, and service name, `"."` and
method name together are the full name. -/
theorem parseServiceFullName_splits_at_first_dot (full_name s0 m0 : Str)
    (h : '.' ∈ full_name) :
    ∃ service_name method_name : Str,
      parseServiceFullName full_name s0 m0 = (true, service_name, method_name) ∧
      service_name = full_name.takeWhile (fun ch => ch != '.') ∧
      method_name = (full_name.dropWhile (fun ch => ch != '.')).drop 1 ∧
      '.' ∉ service_name ∧
      service_name ++ ".".toList ++ method_name = full_name := by
  obtain ⟨a, b, e, ha⟩ := exists_first_dot full_name h
  subst e
  have hall : ∀ x ∈ a, (fun ch : Char => ch != '.') x = true := by
    intro x hx
    have hne : x ≠ '.' := fun e => ha (e ▸ hx)
    simp [hne]
  refine ⟨a, b, parseServiceFullName_append a b s0 m0 ha, ?_, ?_, ha, ?_⟩
  · rw [List.takeWhile_append_of_pos hall]
    simp
  · rw [List.dropWhile_append_of_pos hall]
    simp
  · have hd : ".".toList = ['.'] := rfl
    rw [hd]
    simp

/-- The splitting theorem at the name `pkg.Echo.say`. -/
theorem parseServiceFullName_splits_at_first_dot_witness :
    '.' ∈ "pkg.Echo.say".toList ∧
    ∃ service_name method_name : Str,
      parseServiceFullName "pkg.Echo.say".toList [] [] = (true, service_name, method_name) ∧
      service_name = "pkg.Echo.say".toList.takeWhile (fun ch => ch != '.') ∧
      method_name = ("pkg.Echo.say".toList.dropWhile (fun ch => ch != '.')).drop 1 ∧
      '.' ∉ service_name ∧
      service_name ++ ".".toList ++ method_name = "pkg.Echo.say".toList :=
  ⟨by decide, parseServiceFullName_splits_at_first_dot "pkg.Echo.say".toList [] []
    (by decide)⟩

/-- A name without `'.'` (the empty name is one) ends `dispatch` at its first return,
whatever the service map holds. -/
theorem dispatch_of_no_dot (d : RpcDispatcher) (codes : ErrorCodes)
    (request response : TinyPBProtocol) (connection : TcpConnection)
    (h : '.' ∉ request.m_method_name) :
    d.dispatch codes request response connection =
      { response := setTinyPBError
          { response with m_msg_id := request.m_msg_id,
                          m_method_name := request.m_method_name }
          codes.ERROR_PARSE_SERVICE_NAME "parse service name error".toList,
        connection := connection, outcome := DispatchOutcome.parseError } := by
  unfold dispatch
  simp only [parseServiceFullName_no_dot _ _ _ h]

/-- A name `a ++ "." ++ b` with no `'.'` in `a` takes `dispatch` to the lookup of the
service `a` and of its method `b`. -/
theorem dispatch_of_dot (d : RpcDispatcher) (codes : ErrorCodes)
    (request response : TinyPBProtocol) (connection : TcpConnection) (a b : Str)
    (ha : '.' ∉ a) (hname : request.m_method_name = a ++ '.' :: b) :
    d.dispatch codes request response connection =
      match d.m_service_map.find a with
      | none =>
        { response := setTinyPBError
            { response with m_msg_id := request.m_msg_id,
                            m_method_name := request.m_method_name }
            codes.ERROR_SERVICE_NOT_FOUND "service not found".toList,
          connection := connection, outcome := DispatchOutcome.serviceNotFound }
      | some service =>
        match service.FindMethodByName b with
        | none =>
          { response := setTinyPBError
              { response with m_msg_id := request.m_msg_id,
                              m_method_name := request.m_method_name }
              codes.ERROR_SERVICE_NOT_FOUND "method not found".toList,
            connection := connection, outcome := DispatchOutcome.methodNotFound }
        | some method =>
          match service.ParseFromString method request.m_pb_data with
          | none =>
            { response := setTinyPBError
                { response with m_msg_id := request.m_msg_id,
                                m_method_name := request.m_method_name }
                codes.ERROR_FAILED_DESERIALIZE "deserilize error".toList,
              connection := connection, outcome := DispatchOutcome.deserializeError }
          | some req_msg =>
            match service.CallMethod method
                ⟨connection.getLocalAddr, connection.getPeerAddr, request.m_msg_id⟩
                req_msg with
            | none =>
              { response :=
                  { response with m_msg_id := request.m_msg_id,
                                  m_method_name := request.m_method_name },
                connection := connection,
                outcome := DispatchOutcome.called service method
                  ⟨connection.getLocalAddr, connection.getPeerAddr, request.m_msg_id⟩
                  req_msg ⟨request.m_msg_id, b⟩ }
            | some rsp_msg =>
              { response := (replyClosure codes service method rsp_msg
                  { response with m_msg_id := request.m_msg_id,
                                  m_method_name := request.m_method_name } connection).1,
                connection := (replyClosure codes service method rsp_msg
                  { response with m_msg_id := request.m_msg_id,
                                  m_method_name := request.m_method_name } connection).2,
                outcome := DispatchOutcome.called service method
                  ⟨connection.getLocalAddr, connection.getPeerAddr, request.m_msg_id⟩
                  req_msg ⟨request.m_msg_id, b⟩ } := by
  unfold dispatch
  simp only [hname, parseServiceFullName_append a b [] [] ha]

/-- Claim C7. `dispatch` ends at its parse-error return exactly when the
method-full-name is empty or has no `'.'`. It then leaves the response with
`err_code = ERROR_PARSE_SERVICE_NAME`, `err_info = "parse service name error"` and
`err_info_len = 24`, with msg-id and method-full-name of the request, and does nothing
else: the result mentions neither the service map nor a handler, no handler is invoked
and the connection is as before. For every other name `dispatch` does not end there,
and the error code it leaves is the one of another return, the one the reply closure
sets, or the one the response came with; so it is not `ERROR_PARSE_SERVICE_NAME`
unless one of those has that value. -/
theorem dispatch_parse_error_iff (d : RpcDispatcher) (codes : ErrorCodes)
    (request response : TinyPBProtocol) (connection : TcpConnection) :
    ((d.dispatch codes request response connection).outcome.isParseError = true ↔
      (request.m_method_name = [] ∨ '.' ∉ request.m_method_name)) ∧
    ((request.m_method_name = [] ∨ '.' ∉ request.m_method_name) →
      d.dispatch codes request response connection =
        { response := setTinyPBError
            { response with m_msg_id := request.m_msg_id,
                            m_method_name := request.m_method_name }
            codes.ERROR_PARSE_SERVICE_NAME "parse service name error".toList,
          connection := connection, outcome := DispatchOutcome.parseError } ∧
      (d.dispatch codes request response connection).response.m_err_code =
        codes.ERROR_PARSE_SERVICE_NAME ∧
      (d.dispatch codes request response connection).response.m_err_info =
        "parse service name error".toList ∧
      (d.dispatch codes request response connection).response.m_err_info_len = 24 ∧
      (d.dispatch codes request response connection).response.m_msg_id =
        request.m_msg_id ∧
      (d.dispatch codes request response connection).response.m_method_name =
        request.m_method_name ∧
      (d.dispatch codes request response connection).response.m_pb_data =
        response.m_pb_data ∧
      (d.dispatch codes request response connection).outcome.isCalled = false ∧
      (d.dispatch codes request response connection).connection = connection) ∧
    (¬ (request.m_method_name = [] ∨ '.' ∉ request.m_method_name) →
      (d.dispatch codes request response connection).response.m_err_code ∈
          [codes.ERROR_SERVICE_NOT_FOUND, codes.ERROR_FAILED_DESERIALIZE,
           codes.ERROR_FAILED_SERIALIZE, 0, response.m_err_code] ∧
        (codes.ERROR_PARSE_SERVICE_NAME ∉
            [codes.ERROR_SERVICE_NOT_FOUND, codes.ERROR_FAILED_DESERIALIZE,
             codes.ERROR_FAILED_SERIALIZE, 0, response.m_err_code] →
          (d.dispatch codes request response connection).response.m_err_code ≠
            codes.ERROR_PARSE_SERVICE_NAME)) := by
  have hempty : request.m_method_name = [] → '.' ∉ request.m_method_name := by
    intro e; rw [e]; simp
  by_cases hdot : '.' ∈ request.m_method_name
  · obtain ⟨a, b, hname, ha⟩ := exists_first_dot _ hdot
    have hne : request.m_method_name ≠ [] := fun e => hempty e hdot
    have hcond : ¬ (request.m_method_name = [] ∨ '.' ∉ request.m_method_name) := by
      rintro (e | e)
      · exact hne e
      · exact e hdot
    have hmem : (d.dispatch codes request response connection).response.m_err_code ∈
        [codes.ERROR_SERVICE_NOT_FOUND, codes.ERROR_FAILED_DESERIALIZE,
         codes.ERROR_FAILED_SERIALIZE, 0, response.m_err_code] := by
      rw [dispatch_of_dot d codes request response connection a b ha hname]
      repeat' split
      all_goals simp [setTinyPBError, replyClosure]
      split <;> simp
    refine ⟨?_, fun h => absurd h hcond, fun _ => ⟨hmem, fun hnot e => hnot (e ▸ hmem)⟩⟩
    rw [dispatch_of_dot d codes request response connection a b ha hname]
    constructor
    · intro h
      exfalso
      revert h
      repeat' split
      all_goals simp [DispatchOutcome.isParseError]
    · intro h
      exact absurd h hcond
  · have hcond : request.m_method_name = [] ∨ '.' ∉ request.m_method_name := Or.inr hdot
    rw [dispatch_of_no_dot d codes request response connection hdot]
    refine ⟨⟨fun _ => hcond, fun _ => rfl⟩, fun _ => ?_, fun h => absurd hcond h⟩
    refine ⟨rfl, ?_, ?_, ?_, ?_, ?_, ?_, ?_, ?_⟩
    · simp only [setTinyPBError]
    · simp only [setTinyPBError]
    · simp only [setTinyPBError]
      decide
    · simp only [setTinyPBError]
    · simp only [setTinyPBError]
    · simp only [setTinyPBError]
    · simp only [DispatchOutcome.isCalled]
    · trivial

/-- The parse-error theorem at scenario S3 and at a name without `'.'`: with `Echo`
registered, `dispatch` of the method-full-names `""` and `Echosay` leaves
`err_code = ERROR_PARSE_SERVICE_NAME`, which is 1 in the sample codes, the text
`parse service name error` of length 24, and invokes no handler. -/
theorem dispatch_parse_error_iff_witness :
    ((sampleRequest "3" "").m_method_name = [] ∨
      '.' ∉ (sampleRequest "3" "").m_method_name) ∧
    ((sampleRequest "3" "Echosay").m_method_name = [] ∨
      '.' ∉ (sampleRequest "3" "Echosay").m_method_name) ∧
    (((RpcDispatcher.mk []).registerService (echoService "Echo".toList)).dispatch
      sampleCodes (sampleRequest "3" "") TinyPBProtocol.empty
      (sampleConnection .Connected .TcpConnectionByServer [])).response.m_err_code = 1 ∧
    (((RpcDispatcher.mk []).registerService (echoService "Echo".toList)).dispatch
      sampleCodes (sampleRequest "3" "Echosay") TinyPBProtocol.empty
      (sampleConnection .Connected .TcpConnectionByServer [])).response.m_err_code = 1 ∧
    (((RpcDispatcher.mk []).registerService (echoService "Echo".toList)).dispatch
      sampleCodes (sampleRequest "3" "") TinyPBProtocol.empty
      (sampleConnection .Connected .TcpConnectionByServer [])).response.m_err_info =
        "parse service name error".toList ∧
    (((RpcDispatcher.mk []).registerService (echoService "Echo".toList)).dispatch
      sampleCodes (sampleRequest "3" "") TinyPBProtocol.empty
      (sampleConnection .Connected .TcpConnectionByServer [])).response.m_err_info_len =
        24 ∧
    (((RpcDispatcher.mk []).registerService (echoService "Echo".toList)).dispatch
      sampleCodes (sampleRequest "3" "") TinyPBProtocol.empty
      (sampleConnection .Connected .TcpConnectionByServer [])).outcome.isCalled = false ∧
    (((RpcDispatcher.mk []).registerService (echoService "Echo".toList)).dispatch
      sampleCodes (sampleRequest "3" "Echo.say") TinyPBProtocol.empty
      (sampleConnection .Connected .TcpConnectionByServer [])).response.m_err_code ≠ 1 :=
  ⟨by decide, by decide,
    ((dispatch_parse_error_iff
      ((RpcDispatcher.mk []).registerService (echoService "Echo".toList))
      sampleCodes (sampleRequest "3" "") TinyPBProtocol.empty
      (sampleConnection .Connected .TcpConnectionByServer [])).2.1 (by decide)).2.1,
    ((dispatch_parse_error_iff
      ((RpcDispatcher.mk []).registerService (echoService "Echo".toList))
      sampleCodes (sampleRequest "3" "Echosay") TinyPBProtocol.empty
      (sampleConnection .Connected .TcpConnectionByServer [])).2.1 (by decide)).2.1,
    ((dispatch_parse_error_iff
      ((RpcDispatcher.mk []).registerService (echoService "Echo".toList))
      sampleCodes (sampleRequest "3" "") TinyPBProtocol.empty
      (sampleConnection .Connected .TcpConnectionByServer [])).2.1 (by decide)).2.2.1,
    ((dispatch_parse_error_iff
      ((RpcDispatcher.mk []).registerService (echoService "Echo".toList))
      sampleCodes (sampleRequest "3" "") TinyPBProtocol.empty
      (sampleConnection .Connected .TcpConnectionByServer [])).2.1 (by decide)).2.2.2.1,
    ((dispatch_parse_error_iff
      ((RpcDispatcher.mk []).registerService (echoService "Echo".toList))
      sampleCodes (sampleRequest "3" "") TinyPBProtocol.empty
      (sampleConnection .Connected .TcpConnectionByServer [])).2.1
        (by decide)).2.2.2.2.2.2.2.1,
    ((dispatch_parse_error_iff
      ((RpcDispatcher.mk []).registerService (echoService "Echo".toList))
      sampleCodes (sampleRequest "3" "Echo.say") TinyPBProtocol.empty
      (sampleConnection .Connected .TcpConnectionByServer [])).2.2 (by decide)).2
        (by decide)⟩

/-- Claim C8. When the method-full-name splits into a service name and a method name:
if the service is not in the service map, `dispatch` leaves
`err_code = ERROR_SERVICE_NOT_FOUND`, `err_info = "service not found"` and
`err_info_len` the length of that text (17); if the service is registered without a
method of that name, it leaves `err_code = ERROR_SERVICE_NOT_FOUND` as well. In both
cases no handler is invoked and the connection is as before. -/
theorem dispatch_service_not_found (d : RpcDispatcher) (codes : ErrorCodes)
    (request response : TinyPBProtocol) (connection : TcpConnection)
    (service_name method_name : Str)
    (hsplit : parseServiceFullName request.m_method_name [] [] =
      (true, service_name, method_name)) :
    (d.m_service_map.find service_name = none →
      (d.dispatch codes request response connection).response.m_err_code =
          codes.ERROR_SERVICE_NOT_FOUND ∧
        (d.dispatch codes request response connection).response.m_err_info =
          "service not found".toList ∧
        (d.dispatch codes request response connection).response.m_err_info_len =
          ("service not found".toList.length : Int) ∧
        (d.dispatch codes request response connection).response.m_err_info_len = 17 ∧
        (d.dispatch codes request response connection).outcome.isCalled = false ∧
        (d.dispatch codes request response connection).connection = connection) ∧
    (∀ service, d.m_service_map.find service_name = some service →
      service.FindMethodByName method_name = none →
      (d.dispatch codes request response connection).response.m_err_code =
          codes.ERROR_SERVICE_NOT_FOUND ∧
        (d.dispatch codes request response connection).outcome.isCalled = false ∧
        (d.dispatch codes request response connection).connection = connection) := by
  constructor
  · intro hfind
    simp [dispatch, hsplit, hfind, setTinyPBError, DispatchOutcome.isCalled]
  · intro service hfind hmethod
    simp [dispatch, hsplit, hfind, hmethod, setTinyPBError, DispatchOutcome.isCalled]

/-- The not-found theorem at scenario S2: `Ghost.none` with only `Echo` registered. -/
theorem dispatch_service_not_found_witness :
    parseServiceFullName (sampleRequest "2" "Ghost.none").m_method_name [] [] =
      (true, "Ghost".toList, "none".toList) ∧
    (((RpcDispatcher.mk []).registerService (echoService "Echo".toList)).dispatch
      sampleCodes (sampleRequest "2" "Ghost.none") TinyPBProtocol.empty
      (sampleConnection .Connected .TcpConnectionByServer [])).response.m_err_info =
        "service not found".toList :=
  ⟨by decide,
    ((dispatch_service_not_found
      ((RpcDispatcher.mk []).registerService (echoService "Echo".toList))
      sampleCodes (sampleRequest "2" "Ghost.none") TinyPBProtocol.empty
      (sampleConnection .Connected .TcpConnectionByServer [])
      "Ghost".toList "none".toList (by decide)).1 rfl).2.1⟩

/-- Claim C9. When the reply closure that `dispatch` builds over the response object
(which carries the msg-id of the request) runs: if serializing the response message
succeeds, the payload of the response is the serialized bytes, `err_code` is 0 and
`err_info` is empty; if it fails, `err_code` is `ERROR_FAILED_SERIALIZE`. In both
cases what it does to the connection is one call `reply([response])`, and the msg-id of
that response is the msg-id of the request. -/
theorem replyClosure_replies_once (codes : ErrorCodes) (service : Service)
    (method : MethodDescriptor) (rsp_msg : Message) (request response : TinyPBProtocol)
    (connection : TcpConnection) :
    (replyClosure codes service method rsp_msg
        { response with m_msg_id := request.m_msg_id,
                        m_method_name := request.m_method_name } connection).2 =
      connection.reply [(replyClosure codes service method rsp_msg
        { response with m_msg_id := request.m_msg_id,
                        m_method_name := request.m_method_name } connection).1] ∧
    (replyClosure codes service method rsp_msg
        { response with m_msg_id := request.m_msg_id,
                        m_method_name := request.m_method_name } connection).1.m_msg_id =
      request.m_msg_id ∧
    (if (service.SerializeToString method rsp_msg).1 = true then
      (replyClosure codes service method rsp_msg
          { response with m_msg_id := request.m_msg_id,
                          m_method_name := request.m_method_name } connection).1.m_pb_data =
        (service.SerializeToString method rsp_msg).2 ∧
      (replyClosure codes service method rsp_msg
          { response with m_msg_id := request.m_msg_id,
                          m_method_name := request.m_method_name } connection).1.m_err_code =
        0 ∧
      (replyClosure codes service method rsp_msg
          { response with m_msg_id := request.m_msg_id,
                          m_method_name := request.m_method_name } connection).1.m_err_info =
        []
    else
      (replyClosure codes service method rsp_msg
          { response with m_msg_id := request.m_msg_id,
                          m_method_name := request.m_method_name } connection).1.m_err_code =
        codes.ERROR_FAILED_SERIALIZE) := by
  refine ⟨rfl, ?_, ?_⟩
  · rcases hs : service.SerializeToString method rsp_msg with ⟨ok, data⟩
    cases ok <;> simp [replyClosure, hs, setTinyPBError]
  · rcases hs : service.SerializeToString method rsp_msg with ⟨ok, data⟩
    cases ok <;> simp [replyClosure, hs, setTinyPBError]

/-- Claim C3, as stated, fails on a service name with a `'.'`. The handler
`echoService "pkg.Echo"` has the method `say`, is registered with `registerService`, and
the payload of the request deserializes; still `dispatch` of `pkg.Echo.say` invokes no
handler and leaves `err_code = ERROR_SERVICE_NOT_FOUND`: the name is split at its first
`'.'` and the service `pkg` is looked up. -/
theorem dispatch_dotted_service_name_not_routed :
    (echoService "pkg.Echo".toList).full_name = "pkg.Echo".toList ∧
    (echoService "pkg.Echo".toList).FindMethodByName "say".toList =
      some { name := "say".toList } ∧
    (sampleRequest "1" "pkg.Echo.say").m_method_name =
      "pkg.Echo".toList ++ ".".toList ++ "say".toList ∧
    (echoService "pkg.Echo".toList).ParseFromString { name := "say".toList }
      (sampleRequest "1" "pkg.Echo.say").m_pb_data = some "hi".toList ∧
    (((RpcDispatcher.mk []).registerService (echoService "pkg.Echo".toList)).dispatch
      sampleCodes (sampleRequest "1" "pkg.Echo.say") TinyPBProtocol.empty
      (sampleConnection .Connected .TcpConnectionByServer [])).outcome.isCalled = false ∧
    (((RpcDispatcher.mk []).registerService (echoService "pkg.Echo".toList)).dispatch
      sampleCodes (sampleRequest "1" "pkg.Echo.say") TinyPBProtocol.empty
      (sampleConnection .Connected .TcpConnectionByServer [])).response.m_err_code =
        sampleCodes.ERROR_SERVICE_NOT_FOUND := by
  decide

/-- Registrations under other names leave the handler found under a name as it is. -/
theorem find_registerServices (services : List Service) (k : Str)
    (h : ∀ s ∈ services, s.full_name ≠ k) :
    ∀ d : RpcDispatcher,
      (registerServices d services).m_service_map.find k = d.m_service_map.find k := by
  induction services with
  | nil => intro d; rfl
  | cons s services ih =>
    intro d
    have hs : k ≠ s.full_name := fun e => h s (List.mem_cons_self _ _) e.symm
    have e : registerServices d (s :: services) =
        registerServices (d.registerService s) services := rfl
    rw [e, ih (fun t ht => h t (List.mem_cons_of_mem _ ht))]
    simp only [registerService]
    exact StdMap.find_assign_other _ _ _ _ hs

/-- Claim C3, amended. For every service name `S` without a `'.'` and every method `M`
of a handler `H` registered under `S` with `registerService` (on any dispatcher,
whatever was registered before, and followed by any registrations under other names,
so that `H` is the handler the service map holds for `S`), `dispatch` of a request
whose method-full-name is `S + "." + M` and whose payload deserializes ends at
`CallMethod` on `H` with the descriptor of `M` and the deserialized request. No error
code is set before the handler runs: the response object the handler's closure works on
is the one passed in with only msg-id and method-full-name copied from the request, and
it is left so when the handler does not run the closure. -/
theorem dispatch_routes_registered_method (d : RpcDispatcher) (later : List Service)
    (codes : ErrorCodes)
    (H : Service) (M : Str) (md : MethodDescriptor) (req_msg : Message)
    (request response : TinyPBProtocol) (connection : TcpConnection)
    (hS : '.' ∉ H.full_name)
    (hlater : ∀ s ∈ later, s.full_name ≠ H.full_name)
    (hM : H.FindMethodByName M = some md)
    (hname : request.m_method_name = H.full_name ++ ".".toList ++ M)
    (hparse : H.ParseFromString md request.m_pb_data = some req_msg) :
    ((registerServices (d.registerService H) later).dispatch codes request response
        connection).outcome =
      DispatchOutcome.called H md
        ⟨connection.getLocalAddr, connection.getPeerAddr, request.m_msg_id⟩ req_msg
        ⟨request.m_msg_id, M⟩ ∧
    (H.CallMethod md ⟨connection.getLocalAddr, connection.getPeerAddr, request.m_msg_id⟩
        req_msg = none →
      ((registerServices (d.registerService H) later).dispatch codes request response
          connection).response =
          { response with m_msg_id := request.m_msg_id,
                          m_method_name := request.m_method_name } ∧
        ((registerServices (d.registerService H) later).dispatch codes request response
          connection).connection = connection) ∧
    (∀ rsp_msg,
      H.CallMethod md ⟨connection.getLocalAddr, connection.getPeerAddr, request.m_msg_id⟩
        req_msg = some rsp_msg →
      ((registerServices (d.registerService H) later).dispatch codes request response
          connection).response =
          (replyClosure codes H md rsp_msg
            { response with m_msg_id := request.m_msg_id,
                            m_method_name := request.m_method_name } connection).1 ∧
        ((registerServices (d.registerService H) later).dispatch codes request response
          connection).connection =
          (replyClosure codes H md rsp_msg
            { response with m_msg_id := request.m_msg_id,
                            m_method_name := request.m_method_name } connection).2) := by
  have hd : ".".toList = ['.'] := rfl
  have hname' : request.m_method_name = H.full_name ++ '.' :: M := by
    rw [hname, hd]; simp
  have hfind : (registerServices (d.registerService H) later).m_service_map.find
      H.full_name = some H := by
    rw [find_registerServices later H.full_name hlater]
    simp only [registerService]
    exact StdMap.find_assign_self _ _ _
  rw [dispatch_of_dot (registerServices (d.registerService H) later) codes request
    response connection H.full_name M hS hname']
  simp only [hfind, hM, hparse]
  refine ⟨?_, ?_, ?_⟩
  · split <;> rfl
  · intro hnone
    simp [hnone]
  · intro rsp_msg hsome
    simp [hsome]

/-- The routing theorem at scenario S1 with three registrations, `Echo` in the middle:
`Echo.say` reaches `say` of the handler registered under `Echo`, and the reply the
closure sends carries no error code. -/
theorem dispatch_routes_registered_method_witness :
    '.' ∉ (echoService "Echo".toList).full_name ∧
    (∀ s ∈ [echoService "Third".toList, echoService "Other".toList],
      s.full_name ≠ (echoService "Echo".toList).full_name) ∧
    (echoService "Echo".toList).FindMethodByName "say".toList =
      some { name := "say".toList } ∧
    (sampleRequest "1" "Echo.say").m_method_name =
      (echoService "Echo".toList).full_name ++ ".".toList ++ "say".toList ∧
    (echoService "Echo".toList).ParseFromString { name := "say".toList }
      (sampleRequest "1" "Echo.say").m_pb_data = some "hi".toList ∧
    ((registerServices
        (((RpcDispatcher.mk []).registerService (echoService "Other".toList)).registerService
          (echoService "Echo".toList))
        [echoService "Third".toList, echoService "Other".toList]).dispatch
      sampleCodes (sampleRequest "1" "Echo.say") TinyPBProtocol.empty
      (sampleConnection .Connected .TcpConnectionByServer [])).outcome =
      DispatchOutcome.called (echoService "Echo".toList) { name := "say".toList }
        ⟨(sampleConnection .Connected .TcpConnectionByServer []).getLocalAddr,
         (sampleConnection .Connected .TcpConnectionByServer []).getPeerAddr,
         (sampleRequest "1" "Echo.say").m_msg_id⟩ "hi".toList
        ⟨(sampleRequest "1" "Echo.say").m_msg_id, "say".toList⟩ ∧
    ((registerServices
        (((RpcDispatcher.mk []).registerService (echoService "Other".toList)).registerService
          (echoService "Echo".toList))
        [echoService "Third".toList, echoService "Other".toList]).dispatch
      sampleCodes (sampleRequest "1" "Echo.say") TinyPBProtocol.empty
      (sampleConnection .Connected .TcpConnectionByServer [])).response.m_err_code = 0 :=
  ⟨by decide, by decide, rfl, rfl, rfl,
    (dispatch_routes_registered_method
      ((RpcDispatcher.mk []).registerService (echoService "Other".toList))
      [echoService "Third".toList, echoService "Other".toList] sampleCodes
      (echoService "Echo".toList) "say".toList { name := "say".toList } "hi".toList
      (sampleRequest "1" "Echo.say") TinyPBProtocol.empty
      (sampleConnection .Connected .TcpConnectionByServer [])
      (by decide) (by decide) rfl rfl rfl).1,
    by decide⟩

/-- A call of `dispatch` that does not reach the handler leaves the connection as it
was: in particular it calls no `reply`. -/
theorem dispatch_not_called_connection (d : RpcDispatcher) (codes : ErrorCodes)
    (request response : TinyPBProtocol) (connection : TcpConnection)
    (h : (d.dispatch codes request response connection).outcome.isCalled = false) :
    (d.dispatch codes request response connection).connection = connection := by
  revert h
  unfold dispatch
  simp only
  repeat' split
  all_goals simp [DispatchOutcome.isCalled]

end RpcDispatcher

/-! ## TcpConnection: theorems -/

namespace TcpConnection

/-- The client loop of `excute`, for every list of replies and every map: the
callbacks run are in arrival order; each is the one the map held for the msg-id of its
reply, run with the first reply of that msg-id; no msg-id is served twice; every reply
whose msg-id the map holds has its msg-id served; and the map afterwards has lost
exactly the msg-ids that arrived. -/
theorem excuteClientLoop_spec (result : List TinyPBProtocol) :
    ∀ m : StdMap Callback,
      ((excuteClientLoop result m).2.map Prod.snd).Sublist result ∧
      (∀ done reply, (done, reply) ∈ (excuteClientLoop result m).2 →
        m.find reply.m_msg_id = some done ∧
        result.find? (fun x => decide (x.m_msg_id = reply.m_msg_id)) = some reply) ∧
      ((excuteClientLoop result m).2.map fun p => p.2.m_msg_id).Nodup ∧
      (∀ reply ∈ result, (m.find reply.m_msg_id).isSome = true →
        reply.m_msg_id ∈ (excuteClientLoop result m).2.map fun p => p.2.m_msg_id) ∧
      (∀ k, (excuteClientLoop result m).1.find k =
        if k ∈ result.map (fun x => x.m_msg_id) then none else m.find k) := by
  induction result with
  | nil =>
    intro m
    simp [excuteClientLoop]
  | cons reply result ih =>
    intro m
    cases hf : m.find reply.m_msg_id with
    | none =>
      obtain ⟨ha, hb, hc, hd, he⟩ := ih m
      simp only [excuteClientLoop, hf]
      refine ⟨ha.cons _, ?_, hc, ?_, ?_⟩
      · intro done r hr
        obtain ⟨h1, h2⟩ := hb done r hr
        refine ⟨h1, ?_⟩
        have hne : reply.m_msg_id ≠ r.m_msg_id := by
          intro e
          rw [e, h1] at hf
          exact Option.noConfusion hf
        simp [List.find?_cons, hne, h2]
      · intro r hr hsome
        rcases List.mem_cons.mp hr with e | e
        · rw [e, hf] at hsome
          exact absurd hsome (by simp)
        · exact hd r e hsome
      · intro k
        rw [he k]
        by_cases hk : k = reply.m_msg_id
        · subst hk
          simp [hf]
        · simp [hk]
    | some done0 =>
      obtain ⟨ha, hb, hc, hd, he⟩ := ih (m.erase reply.m_msg_id)
      simp only [excuteClientLoop, hf]
      have hids : ∀ id ∈ (excuteClientLoop result (m.erase reply.m_msg_id)).2.map
          (fun p => p.2.m_msg_id), id ≠ reply.m_msg_id := by
        intro id hid e
        obtain ⟨p, hp, hpe⟩ := List.mem_map.mp hid
        obtain ⟨h1, -⟩ := hb p.1 p.2 hp
        rw [hpe, e, StdMap.find_erase] at h1
        simp at h1
      refine ⟨?_, ?_, ?_, ?_, ?_⟩
      · simp only [List.map_cons]
        exact ha.cons₂ _
      · intro done r hr
        rcases List.mem_cons.mp hr with e | e
        · obtain ⟨e1, e2⟩ := Prod.mk.inj e
          subst e1 e2
          exact ⟨hf, by simp⟩
        · obtain ⟨h1, h2⟩ := hb done r e
          have hne : r.m_msg_id ≠ reply.m_msg_id :=
            hids _ (List.mem_map.mpr ⟨(done, r), e, rfl⟩)
          rw [StdMap.find_erase, if_neg hne] at h1
          refine ⟨h1, ?_⟩
          have hne' : reply.m_msg_id ≠ r.m_msg_id := fun e => hne e.symm
          simp [List.find?_cons, hne', h2]
      · simp only [List.map_cons]
        exact List.nodup_cons.mpr ⟨fun hmem => hids _ hmem rfl, hc⟩
      · intro r hr hsome
        simp only [List.map_cons]
        by_cases hne : r.m_msg_id = reply.m_msg_id
        · rw [hne]
          exact List.mem_cons_self _ _
        · rcases List.mem_cons.mp hr with e | e
          · exact absurd (by rw [e]) hne
          · have hs : ((m.erase reply.m_msg_id).find r.m_msg_id).isSome = true := by
              rw [StdMap.find_erase, if_neg hne]
              exact hsome
            exact List.mem_cons_of_mem _ (hd r e hs)
      · intro k
        rw [he k, StdMap.find_erase]
        by_cases hk : k = reply.m_msg_id
        · subst hk
          simp
        · simp [hk]

/-- Claim C10. On a CLIENT connection, for every list of decoded replies and every
pending-reads map, `excute` runs callbacks in arrival order, each with its reply as
argument; a callback is run exactly for a reply whose msg-id the map holds when the
reply is processed: it is the callback registered for that msg-id, run with the first
reply of that msg-id, no msg-id is served twice, and every reply whose msg-id is
registered has its msg-id served. Afterwards the entries of the msg-ids that arrived
are gone and all other entries are as before. -/
theorem excute_client_runs_pending_reads (c : TcpConnection) (dispatcher : RpcDispatcher)
    (codes : ErrorCodes)
    (h : c.m_connection_type = TcpConnectionType.TcpConnectionByClient) :
    (((c.excute dispatcher codes).read_dones_run.map Prod.snd).Sublist
      (c.m_coder.decode c.m_in_buffer).1) ∧
    (∀ done reply, (done, reply) ∈ (c.excute dispatcher codes).read_dones_run →
      c.m_read_dones.find reply.m_msg_id = some done ∧
      (c.m_coder.decode c.m_in_buffer).1.find?
        (fun x => decide (x.m_msg_id = reply.m_msg_id)) = some reply) ∧
    (((c.excute dispatcher codes).read_dones_run.map fun p => p.2.m_msg_id).Nodup) ∧
    (∀ reply ∈ (c.m_coder.decode c.m_in_buffer).1,
      (c.m_read_dones.find reply.m_msg_id).isSome = true →
      reply.m_msg_id ∈ (c.excute dispatcher codes).read_dones_run.map
        fun p => p.2.m_msg_id) ∧
    (∀ k, (c.excute dispatcher codes).connection.m_read_dones.find k =
      if k ∈ (c.m_coder.decode c.m_in_buffer).1.map (fun x => x.m_msg_id) then none
      else c.m_read_dones.find k) ∧
    (c.excute dispatcher codes).dispatched = [] := by
  have hne : ¬ c.m_connection_type = TcpConnectionType.TcpConnectionByServer := by
    rw [h]; decide
  obtain ⟨ha, hb, hc, hd, he⟩ :=
    excuteClientLoop_spec (c.m_coder.decode c.m_in_buffer).1 c.m_read_dones
  unfold excute
  simp only [if_neg hne]
  exact ⟨ha, hb, hc, hd, he, trivial⟩

/-- The client theorem at scenario S5: the replies `2`, `9`, `2`, `1` run the callback
of `2` and then the one of `1`, each once. -/
theorem excute_client_runs_pending_reads_witness :
    sampleClient.m_connection_type = TcpConnectionType.TcpConnectionByClient ∧
    (sampleClient.excute (RpcDispatcher.mk []) sampleCodes).read_dones_run =
      [(22, sampleRequest "2" "B.m"), (11, sampleRequest "1" "A.m")] ∧
    ((sampleClient.excute (RpcDispatcher.mk []) sampleCodes).read_dones_run.map
      (fun p => p.2.m_msg_id)).Nodup :=
  ⟨rfl, by decide,
    (excute_client_runs_pending_reads sampleClient (RpcDispatcher.mk []) sampleCodes
      rfl).2.2.1⟩

/-- Every operation of a connection other than `setState` leaves a `Closed`
connection `Closed`: `onRead` and `onWrite` return at once, `clear` and `shutdown`
change nothing, and `reply`, `pushSendMessage` and `pushReadMessage` do not touch the
state. -/
theorem closed_stays_closed (c : TcpConnection) (h : c.m_state = TcpState.Closed)
    (reads : List ReadResult) (writes : List WriteResult) (dispatcher : RpcDispatcher)
    (codes : ErrorCodes) (messages : List TinyPBProtocol) (message : TinyPBProtocol)
    (msg_id : Str) (done : Callback) :
    c.onRead reads dispatcher codes =
      some { connection := c, reads := 0, excuted := none } ∧
    c.onWrite writes =
      some { connection := c, sent := [], writes := 0, write_dones_run := [] } ∧
    c.clear = c ∧ c.shutdown = c ∧
    (c.reply messages).getState = TcpState.Closed ∧
    (c.pushSendMessage message done).getState = TcpState.Closed ∧
    (c.pushReadMessage msg_id done).getState = TcpState.Closed := by
  have hne : c.m_state ≠ TcpState.Connected := by rw [h]; decide
  refine ⟨?_, ?_, ?_, ?_, ?_, ?_, ?_⟩
  · unfold onRead
    rw [if_pos hne]
  · unfold onWrite
    rw [if_pos hne]
  · unfold clear
    rw [if_pos h]
  · unfold shutdown
    rw [if_pos (Or.inl h)]
  · exact h
  · exact h
  · exact h

/-- The server loop of `excute` over requests none of which reaches its handler
leaves the connection as it was. -/
theorem excuteServerLoop_all_failed (dispatcher : RpcDispatcher) (codes : ErrorCodes)
    (result : List TinyPBProtocol) :
    ∀ c : TcpConnection,
      (∀ o ∈ (excuteServerLoop dispatcher codes result c).2, o.isCalled = false) →
      (excuteServerLoop dispatcher codes result c).1 = c := by
  induction result with
  | nil =>
    intro c _
    rfl
  | cons request result ih =>
    intro c hall
    simp only [excuteServerLoop] at hall ⊢
    have h1 := RpcDispatcher.dispatch_not_called_connection dispatcher codes request
      TinyPBProtocol.empty c (hall _ (List.mem_cons_self _ _))
    rw [h1] at hall ⊢
    exact ih c (fun o ho => hall o (List.mem_cons_of_mem _ ho))

/-- On a SERVER connection, when no decoded request reaches its handler (each
`dispatch` ends at one of its four error returns), `excute` changes nothing but the
in-buffer the decoder consumed: the out-buffer, the write interest and the event loop
are as before, so no reply was made. -/
theorem excute_server_all_failed (c : TcpConnection) (dispatcher : RpcDispatcher)
    (codes : ErrorCodes)
    (hs : c.m_connection_type = TcpConnectionType.TcpConnectionByServer)
    (hall : ∀ o ∈ (c.excute dispatcher codes).dispatched, o.isCalled = false) :
    (c.excute dispatcher codes).connection =
      { c with m_in_buffer := (c.m_coder.decode c.m_in_buffer).2 } := by
  unfold excute at hall ⊢
  simp only [if_pos hs] at hall ⊢
  exact excuteServerLoop_all_failed dispatcher codes _ _ hall

/-- Claim C4 (the code breaks it). A connected SERVER connection decodes three
requests whose dispatch fails: an empty method-full-name, an unknown service and an
unknown method of the registered service `Echo`. After `excute` no handler was invoked,
and nothing was replied: the out-buffer is as before, with nothing readable, write
interest is not armed and no call was made on the event loop. -/
theorem excute_failed_dispatch_sends_no_reply :
    ((sampleConnection .Connected .TcpConnectionByServer
        [sampleRequest "3" "", sampleRequest "2" "Ghost.none",
         sampleRequest "4" "Echo.nothing"]).excute
      ((RpcDispatcher.mk []).registerService (echoService "Echo".toList))
      sampleCodes).dispatched.map DispatchOutcome.isCalled = [false, false, false] ∧
    ((sampleConnection .Connected .TcpConnectionByServer
        [sampleRequest "3" "", sampleRequest "2" "Ghost.none",
         sampleRequest "4" "Echo.nothing"]).excute
      ((RpcDispatcher.mk []).registerService (echoService "Echo".toList))
      sampleCodes).connection.m_out_buffer =
      (sampleConnection .Connected .TcpConnectionByServer []).m_out_buffer ∧
    ((sampleConnection .Connected .TcpConnectionByServer
        [sampleRequest "3" "", sampleRequest "2" "Ghost.none",
         sampleRequest "4" "Echo.nothing"]).excute
      ((RpcDispatcher.mk []).registerService (echoService "Echo".toList))
      sampleCodes).connection.m_out_buffer.readAble = 0 ∧
    ((sampleConnection .Connected .TcpConnectionByServer
        [sampleRequest "3" "", sampleRequest "2" "Ghost.none",
         sampleRequest "4" "Echo.nothing"]).excute
      ((RpcDispatcher.mk []).registerService (echoService "Echo".toList))
      sampleCodes).connection.m_fd_event.write_callback = none ∧
    ((sampleConnection .Connected .TcpConnectionByServer
        [sampleRequest "3" "", sampleRequest "2" "Ghost.none",
         sampleRequest "4" "Echo.nothing"]).excute
      ((RpcDispatcher.mk []).registerService (echoService "Echo".toList))
      sampleCodes).connection.m_event_loop = [] := by
  decide

/-- Claim C5 (the code breaks it). On a connection whose state is `Closed`,
`setState(Closed)` leaves the state `Connected`, and so does `setState` with every
other argument: whatever the connection and the argument, the state after `setState` is
`Connected`. -/
theorem setState_reopens_closed (c : TcpConnection) (state : TcpState) :
    (c.setState state).getState = TcpState.Connected ∧
    (sampleConnection .Closed .TcpConnectionByServer []).getState = TcpState.Closed ∧
    ((sampleConnection .Closed .TcpConnectionByServer []).setState
      TcpState.Closed).getState = TcpState.Connected ∧
    ((sampleConnection .Closed .TcpConnectionByServer []).setState
      TcpState.NotConnected).getState = TcpState.Connected ∧
    ((sampleConnection .Closed .TcpConnectionByServer []).setState
      TcpState.HalfClosing).getState = TcpState.Connected ∧
    ((sampleConnection .Closed .TcpConnectionByServer []).setState
      TcpState.Connected).getState = TcpState.Connected :=
  ⟨rfl, by decide, by decide, by decide, by decide, by decide⟩

end TcpConnection

/-- Scenario S1: the request `Echo.say` with msg-id `1` and payload `hi` reaches the
handler, whose closure leaves the response `{msg_id = 1, err_code = 0, payload = hi}`
and has it encoded into the out-buffer (the example codec writes the msg-id, `'1'`). -/
theorem dispatch_echo_example :
    (((RpcDispatcher.mk []).registerService (echoService "Echo".toList)).dispatch
      sampleCodes (sampleRequest "1" "Echo.say") TinyPBProtocol.empty
      (sampleConnection .Connected .TcpConnectionByServer [])).response =
      { m_msg_id := "1".toList, m_method_name := "Echo.say".toList, m_err_code := 0,
        m_err_info := [], m_err_info_len := 0, m_pb_data := "hi".toList } ∧
    (((RpcDispatcher.mk []).registerService (echoService "Echo".toList)).dispatch
      sampleCodes (sampleRequest "1" "Echo.say") TinyPBProtocol.empty
      (sampleConnection .Connected .TcpConnectionByServer [])).connection.m_out_buffer =
      ⟨0, 1, 8, 49 :: List.replicate 7 0⟩ ∧
    (((RpcDispatcher.mk []).registerService (echoService "Echo".toList)).dispatch
      sampleCodes (sampleRequest "1" "Echo.say") TinyPBProtocol.empty
      (sampleConnection .Connected .TcpConnectionByServer
        [])).connection.m_fd_event.write_callback = some FdCallback.onWrite := by
  decide

/-! ## TcpBuffer: moving the read index, reading, growing -/

namespace TcpBuffer

/-- Claim C11 (the code breaks it). On the buffer of capacity 30 with read index 1 and
write index 3, which holds the readable bytes 7 and 8, `moveReadIndex(4)` has
`read_index + n = 5 > 3 = write_index` and still succeeds: it returns with read index
5. -/
theorem moveReadIndex_passes_write_index :
    TcpBuffer.IndexInv ⟨1, 3, 30, 0 :: 7 :: 8 :: List.replicate 27 0⟩ ∧
    (1 : Int) + 4 > 3 ∧
    TcpBuffer.moveReadIndex ⟨1, 3, 30, 0 :: 7 :: 8 :: List.replicate 27 0⟩ 4 =
      some ⟨5, 3, 30, 0 :: 7 :: 8 :: List.replicate 27 0⟩ ∧
    (TcpBuffer.moveReadIndex ⟨1, 3, 30, 0 :: 7 :: 8 :: List.replicate 27 0⟩ 4).map
      (fun b => b.m_read_index) ≠ some 1 := by
  decide

/-- The method `moveReadIndex` does fail, leaving the buffer as it is, when
`read_index + n` reaches the capacity. -/
theorem moveReadIndex_fails_at_capacity (b : TcpBuffer) (n : Int)
    (h0 : 0 ≤ b.m_read_index + n) (h1 : b.m_read_index + n < 2 ^ 64)
    (hcap : (b.m_buffer.length : Int) ≤ b.m_read_index + n) :
    b.moveReadIndex n = some b := by
  unfold moveReadIndex
  simp only
  rw [Int.emod_eq_of_lt h0 h1, if_pos (by omega)]

/-- Claim C12, as stated, fails when nothing is readable. On the empty buffer of
capacity 8, which satisfies the index invariant, `readFromBuffer(out, 5)` with `out`
holding the two bytes 7, 7 returns at its first test and leaves `out` as it was: two
bytes, not `min(5, 0) = 0`. -/
theorem readFromBuffer_keeps_out_when_empty :
    TcpBuffer.IndexInv ⟨0, 0, 8, List.replicate 8 0⟩ ∧
    TcpBuffer.readAble ⟨0, 0, 8, List.replicate 8 0⟩ = 0 ∧
    TcpBuffer.readFromBuffer ⟨0, 0, 8, List.replicate 8 0⟩ [7, 7] 5 =
      some ([7, 7], ⟨0, 0, 8, List.replicate 8 0⟩) ∧
    (TcpBuffer.readFromBuffer ⟨0, 0, 8, List.replicate 8 0⟩ [7, 7] 5).map
      (fun r => (r.1.length : Int)) ≠
      some (min 5 (TcpBuffer.readAble ⟨0, 0, 8, List.replicate 8 0⟩)) := by
  decide

/-- Claim C12, amended. For every buffer satisfying the index invariant and every
`n ≥ 0`, `readFromBuffer(out, n)` returns. When at least one byte is readable then,
whatever `out` held before, it leaves `out` holding exactly `min(n, readable)` bytes,
the first `min(n, readable)` readable bytes in order; when nothing is readable it
leaves `out` as it was. In both cases the readable count is reduced by exactly
`min(n, readable)` and the bytes that stay readable are those behind the ones read. -/
theorem readFromBuffer_returns_front (b : TcpBuffer) (h : b.IndexInv) (re : List Byte)
    (n : Int) (hn : 0 ≤ n) :
    ∃ out b', b.readFromBuffer re n = some (out, b') ∧
      (b.readAble ≠ 0 →
        (out.length : Int) = min n b.readAble ∧
        out = b.readableBytes.take (min n b.readAble).toNat) ∧
      (b.readAble = 0 → out = re) ∧
      b'.readAble = b.readAble - min n b.readAble ∧
      b'.readableBytes = b.readableBytes.drop (min n b.readAble).toNat ∧
      b'.IndexInv := by
  obtain ⟨out, b', e, inv', -, ho, rd⟩ := readFromBuffer_spec b h re n hn
  have hl := length_readableBytes b h
  have hl' := length_readableBytes b' inv'
  have hra : 0 ≤ b.readAble := by
    obtain ⟨h0, h1, h2⟩ := h
    simp only [readAble]; omega
  have hra' : 0 ≤ b'.readAble := by
    obtain ⟨h0, h1, h2⟩ := inv'
    simp only [readAble]; omega
  have htake : b.readableBytes.take n.toNat =
      b.readableBytes.take (min n b.readAble).toNat := by
    rw [List.take_eq_take, hl]; omega
  have hdrop : b.readableBytes.drop n.toNat =
      b.readableBytes.drop (min n b.readAble).toNat := by
    by_cases hle : n ≤ b.readAble
    · rw [min_eq_left hle]
    · rw [min_eq_right (by omega), List.drop_of_length_le (by rw [hl]; omega),
        List.drop_of_length_le (by rw [hl])]
  refine ⟨out, b', e, ?_, ?_, ?_, ?_, inv'⟩
  · intro hne
    rw [if_neg hne, htake] at ho
    refine ⟨?_, ho⟩
    rw [ho, List.length_take, hl]
    omega
  · intro hz
    rw [if_pos hz] at ho
    exact ho
  · rw [rd, List.length_drop, hl] at hl'
    omega
  · rw [rd, hdrop]

/-- The reading theorem on a buffer with the readable bytes 1, 2, 3, read with
`n = 2` into a vector that held the byte 9. -/
theorem readFromBuffer_returns_front_witness :
    TcpBuffer.IndexInv ⟨0, 3, 8, [1, 2, 3, 0, 0, 0, 0, 0]⟩ ∧ (0 : Int) ≤ 2 ∧
    ∃ out b', TcpBuffer.readFromBuffer ⟨0, 3, 8, [1, 2, 3, 0, 0, 0, 0, 0]⟩ [9] 2 =
        some (out, b') ∧
      (TcpBuffer.readAble ⟨0, 3, 8, [1, 2, 3, 0, 0, 0, 0, 0]⟩ ≠ 0 →
        (out.length : Int) = min 2 (TcpBuffer.readAble ⟨0, 3, 8, [1, 2, 3, 0, 0, 0, 0, 0]⟩) ∧
        out = (TcpBuffer.readableBytes ⟨0, 3, 8, [1, 2, 3, 0, 0, 0, 0, 0]⟩).take
          (min 2 (TcpBuffer.readAble ⟨0, 3, 8, [1, 2, 3, 0, 0, 0, 0, 0]⟩)).toNat) ∧
      (TcpBuffer.readAble ⟨0, 3, 8, [1, 2, 3, 0, 0, 0, 0, 0]⟩ = 0 → out = [9]) ∧
      b'.readAble = TcpBuffer.readAble ⟨0, 3, 8, [1, 2, 3, 0, 0, 0, 0, 0]⟩ -
        min 2 (TcpBuffer.readAble ⟨0, 3, 8, [1, 2, 3, 0, 0, 0, 0, 0]⟩) ∧
      b'.readableBytes = (TcpBuffer.readableBytes ⟨0, 3, 8, [1, 2, 3, 0, 0, 0, 0, 0]⟩).drop
        (min 2 (TcpBuffer.readAble ⟨0, 3, 8, [1, 2, 3, 0, 0, 0, 0, 0]⟩)).toNat ∧
      b'.IndexInv :=
  ⟨by decide, by decide,
    readFromBuffer_returns_front ⟨0, 3, 8, [1, 2, 3, 0, 0, 0, 0, 0]⟩ (by decide) [9] 2
      (by decide)⟩

/-- The cast `(int)(1.5 * x)` of a non-negative `x`, as the floor of the rational
product. -/
theorem floor_three_halves (x : Int) : ⌊(3 / 2 : ℚ) * (x : ℚ)⌋ = 3 * x / 2 := by
  have h : (3 / 2 : ℚ) * (x : ℚ) = ((3 * x : ℤ) : ℚ) / ((2 : ℕ) : ℚ) := by
    push_cast; ring
  rw [h, Rat.floor_intCast_div_natCast]
  norm_num

/-- Claim C13, as stated, fails for a large write. On the buffer of capacity 4 with
write index 0, the write of 1431655766 bytes exceeds the writable space; its new
capacity `⌊1.5 * 1431655766⌋ = 2147483649` is beyond `INT_MAX`, the call does not
return and no capacity results. -/
theorem writeToBuffer_capacity_overflows :
    TcpBuffer.IndexInv ⟨0, 0, 4, List.replicate 4 0⟩ ∧
    (1431655766 : Int) ≤ ((List.replicate 1431655766 (0 : Byte)).length : Int) ∧
    (1431655766 : Int) > TcpBuffer.writeAble ⟨0, 0, 4, List.replicate 4 0⟩ ∧
    INT_MAX < ⌊(3 / 2 : ℚ) * (((0 : Int) + 1431655766 : Int) : ℚ)⌋ ∧
    TcpBuffer.writeToBuffer ⟨0, 0, 4, List.replicate 4 0⟩
      (List.replicate 1431655766 0) 1431655766 = none := by
  have hinv : TcpBuffer.IndexInv ⟨0, 0, 4, List.replicate 4 0⟩ := by decide
  refine ⟨hinv, by rw [List.length_replicate]; norm_num,
    by simp [TcpBuffer.writeAble], ?_, ?_⟩
  · rw [floor_three_halves]
    simp [INT_MAX]
  · exact writeToBuffer_overflow ⟨0, 0, 4, List.replicate 4 0⟩ hinv
      (List.replicate 1431655766 0) 1431655766 (by norm_num)
      (by simp [TcpBuffer.writeAble]) (by simp [INT_MAX])

/-- Claim C13, amended. For every buffer satisfying the index invariant, with write
index `w`, and every write of `n ≥ 0` bytes: if `n` exceeds the writable space and
`⌊1.5 * (w + n)⌋` is at most `INT_MAX`, `writeToBuffer` returns and the capacity
afterwards is `⌊1.5 * (w + n)⌋`; if `n` exceeds the writable space and
`⌊1.5 * (w + n)⌋` is beyond `INT_MAX`, the call does not return; if `n` fits in the
writable space, the call returns and the capacity is unchanged. -/
theorem writeToBuffer_capacity (b : TcpBuffer) (h : b.IndexInv) (buf : List Byte)
    (n : Int) (hn : 0 ≤ n) (hb : n ≤ buf.length) :
    (n > b.writeAble → ⌊(3 / 2 : ℚ) * ((b.m_write_index + n : Int) : ℚ)⌋ ≤ INT_MAX →
      ∃ b', b.writeToBuffer buf n = some b' ∧
        (b'.m_buffer.length : Int) = ⌊(3 / 2 : ℚ) * ((b.m_write_index + n : Int) : ℚ)⌋) ∧
    (n > b.writeAble → INT_MAX < ⌊(3 / 2 : ℚ) * ((b.m_write_index + n : Int) : ℚ)⌋ →
      b.writeToBuffer buf n = none) ∧
    (n ≤ b.writeAble →
      ∃ b', b.writeToBuffer buf n = some b' ∧ b'.m_buffer.length = b.m_buffer.length) := by
  rw [floor_three_halves]
  refine ⟨?_, ?_, ?_⟩
  · intro hgt hfit
    obtain ⟨b', e, -, -, hcap, -⟩ := writeToBuffer_spec b h buf n hn hb (fun _ => hfit)
    rw [if_pos hgt] at hcap
    exact ⟨b', e, hcap⟩
  · intro hgt hover
    exact writeToBuffer_overflow b h buf n hn hgt hover
  · intro hle
    obtain ⟨b', e, -, -, hcap, -⟩ :=
      writeToBuffer_spec b h buf n hn hb (fun hgt => absurd hle (by omega))
    rw [if_neg (by omega)] at hcap
    exact ⟨b', e, by exact_mod_cast hcap⟩

/-- The capacity theorem on a buffer of capacity 4 with write index 3 that is written
3 bytes: the capacity becomes `⌊1.5 * 6⌋ = 9`. -/
theorem writeToBuffer_capacity_witness :
    TcpBuffer.IndexInv ⟨0, 3, 4, [1, 2, 3, 0]⟩ ∧ (0 : Int) ≤ 3 ∧
    (3 : Int) ≤ ([4, 5, 6] : List Byte).length ∧
    (3 : Int) > TcpBuffer.writeAble ⟨0, 3, 4, [1, 2, 3, 0]⟩ ∧
    ⌊(3 / 2 : ℚ) * (((3 : Int) + 3 : Int) : ℚ)⌋ ≤ INT_MAX ∧
    (TcpBuffer.writeToBuffer ⟨0, 3, 4, [1, 2, 3, 0]⟩ [4, 5, 6] 3).map
      (fun b => b.m_buffer.length) = some 9 ∧
    ∃ b', TcpBuffer.writeToBuffer ⟨0, 3, 4, [1, 2, 3, 0]⟩ [4, 5, 6] 3 = some b' ∧
      (b'.m_buffer.length : Int) = ⌊(3 / 2 : ℚ) * (((3 : Int) + 3 : Int) : ℚ)⌋ :=
  ⟨by decide, by decide, by decide, by decide,
    by rw [floor_three_halves]; decide, by decide,
    (writeToBuffer_capacity ⟨0, 3, 4, [1, 2, 3, 0]⟩ (by decide) [4, 5, 6] 3 (by decide)
      (by decide)).1 (by decide) (by rw [floor_three_halves]; decide)⟩

end TcpBuffer

/-! ## IPNetAddr: theorems -/

/-- A result `some i` of `find_first_of` for one character splits the string at `i`:
the character stands there and not before. -/
theorem find_first_of_single_some (c : Char) (s : Str) :
    ∀ i, find_first_of s [c] = some i →
      s = s.take i ++ c :: s.drop (i + 1) ∧ c ∉ s.take i := by
  induction s with
  | nil =>
    intro i h
    simp [find_first_of] at h
  | cons x s ih =>
    intro i h
    by_cases hx : x = c
    · subst hx
      simp [find_first_of] at h
      subst h
      simp
    · simp only [find_first_of, List.mem_singleton, hx, if_false, Option.map_eq_some'] at h
      obtain ⟨j, hj, rfl⟩ := h
      obtain ⟨h1, h2⟩ := ih j hj
      refine ⟨?_, ?_⟩
      · simp only [List.take_succ_cons, List.drop_succ_cons, List.cons_append]
        rw [← h1]
      · simp only [List.take_succ_cons, List.mem_cons, not_or]
        exact ⟨fun e => hx e.symm, h2⟩

namespace IPNetAddr

/-- What `CheckValid` does check: an accepted string is `ip:port` with `ip` free of
`':'`, both parts non-empty, and `0 < atoi(port) ≤ 65536`. -/
theorem CheckValid_accepts_only (addr : Str) (h : CheckValid addr = true) :
    ∃ ip port : Str, addr = ip ++ ':' :: port ∧ ':' ∉ ip ∧ ip ≠ [] ∧ port ≠ [] ∧
      0 < atoi port ∧ atoi port ≤ 65536 := by
  have hc : ":".toList = [':'] := rfl
  unfold CheckValid at h
  rw [hc] at h
  cases hf : find_first_of addr [':'] with
  | none => simp [hf] at h
  | some i =>
    obtain ⟨h1, h2⟩ := find_first_of_single_some ':' addr i hf
    have hport : substr addr (i + 1) (addr.length - i - 1) = addr.drop (i + 1) := by
      unfold substr
      rw [List.take_of_length_le]
      rw [List.length_drop]
      omega
    have hip : substr addr 0 i = addr.take i := by
      unfold substr
      rw [List.drop_zero]
    simp only [hf, hip, hport] at h
    refine ⟨addr.take i, addr.drop (i + 1), h1, h2, ?_, ?_, ?_, ?_⟩
    · intro e
      simp [e] at h
    · intro e
      simp [e] at h
    · by_contra hle
      simp [hle] at h
    · by_contra hgt
      have hgt' : atoi (addr.drop (i + 1)) > 65536 := by omega
      simp [hgt'] at h

/-- Claim C14 (the code breaks it). The static `CheckValid` accepts the string
`127.0.0.1:65536`, and the instance `checkValid` accepts the loopback address
constructed with port 0 and, since the constructor takes the port as `uint16_t`, the
one constructed with port 65536. For every address the instance `checkValid` answers
for port 0 and for port 65536 what it answers for port 80. (Port 0 and ports above
65536 in a string, a string without `':'`, an empty ip part and an empty port part are
rejected by `CheckValid`.) -/
theorem checkValid_accepts_bad_ports (inet_addr : Str → Nat) (ip : Str) :
    CheckValid "127.0.0.1:65536".toList = true ∧
    checkValid sampleInetAddr (ofIpPort "127.0.0.1".toList 0) = true ∧
    checkValid sampleInetAddr (ofIpPort "127.0.0.1".toList 65536) = true ∧
    checkValid inet_addr { m_ip := ip, m_port := 0 } =
      checkValid inet_addr { m_ip := ip, m_port := 80 } ∧
    checkValid inet_addr { m_ip := ip, m_port := 65536 } =
      checkValid inet_addr { m_ip := ip, m_port := 80 } ∧
    CheckValid "127.0.0.1:0".toList = false ∧
    CheckValid "127.0.0.1:65537".toList = false ∧
    CheckValid "127.0.0.1".toList = false ∧
    CheckValid ":80".toList = false ∧
    CheckValid "127.0.0.1:".toList = false :=
  ⟨by decide, by decide, by decide, by simp [checkValid], by simp [checkValid],
    by decide, by decide, by decide, by decide, by decide⟩

end IPNetAddr

/-! ## TcpServer: theorems -/

namespace TcpServer

theorem clearClientLoop_eq_filter (entries : List ConnectionPtr) :
    clearClientLoop entries = entries.filter (fun p => !p.isClosed) := by
  induction entries with
  | nil => rfl
  | cons it rest ih =>
    cases ht : it.target with
    | none =>
      simp [clearClientLoop, ht, ConnectionPtr.isClosed, ih]
    | some connection =>
      by_cases hc : connection.m_state = TcpState.Closed
      · simp [clearClientLoop, ht, ConnectionPtr.isClosed, ConnectionPtr.use_count,
          TcpConnection.getState, hc, ih]
      · simp [clearClientLoop, ht, ConnectionPtr.isClosed, TcpConnection.getState, hc, ih]

/-- Claim C16. For every client set, `ClearClientTimerFunc` leaves, in their order,
exactly the entries that are not a connection in state `Closed`: every entry whose
connection is `Closed` is gone after the one pass, and every entry whose connection is
`NotConnected`, `Connected` or `HalfClosing` is still there. -/
theorem ClearClientTimerFunc_removes_closed (s : TcpServer) :
    s.ClearClientTimerFunc.m_client = s.m_client.filter (fun p => !p.isClosed) ∧
    (∀ p ∈ s.m_client, ∀ connection, p.target = some connection →
      connection.getState = TcpState.Closed → p ∉ s.ClearClientTimerFunc.m_client) ∧
    (∀ p ∈ s.m_client, ∀ connection, p.target = some connection →
      (connection.getState = TcpState.NotConnected ∨
        connection.getState = TcpState.Connected ∨
        connection.getState = TcpState.HalfClosing) →
      p ∈ s.ClearClientTimerFunc.m_client) := by
  have he : s.ClearClientTimerFunc.m_client = s.m_client.filter (fun p => !p.isClosed) :=
    clearClientLoop_eq_filter s.m_client
  refine ⟨he, ?_, ?_⟩
  · intro p _ connection ht hc hmem
    rw [he, List.mem_filter] at hmem
    simp [ConnectionPtr.isClosed, ht, TcpConnection.getState] at hmem hc
    exact hmem.2 hc
  · intro p hp connection ht hc
    rw [he, List.mem_filter]
    refine ⟨hp, ?_⟩
    simp only [ConnectionPtr.isClosed, ht, TcpConnection.getState] at hc ⊢
    rcases hc with e | e | e <;> simp [e]

/-- A client set of four connections, one per state, and a null entry: one pass leaves
the states `NotConnected`, `Connected`, `HalfClosing` and the null entry. -/
theorem ClearClientTimerFunc_example :
    (ClearClientTimerFunc
      { m_client :=
          [⟨some (sampleConnection .Closed .TcpConnectionByServer []), 0⟩,
           ⟨some (sampleConnection .NotConnected .TcpConnectionByServer []), 0⟩,
           ⟨some (sampleConnection .Connected .TcpConnectionByServer []), 1⟩,
           ⟨none, 0⟩,
           ⟨some (sampleConnection .Closed .TcpConnectionByServer []), 2⟩,
           ⟨some (sampleConnection .HalfClosing .TcpConnectionByServer []), 0⟩] }).m_client.map
      (fun p => p.target.map TcpConnection.getState) =
      [some TcpState.NotConnected, some TcpState.Connected, none,
       some TcpState.HalfClosing] := by
  decide

end TcpServer

/-! ## TcpConnection: clear, the early returns, the read loop -/

namespace TcpConnection

/-- Claim C17, as stated, fails on a connection that is already `Closed` with write
interest armed. A connected connection is cleared, and then `reply` is called on it (as
the closure of a handler that finishes late does): the state is `Closed` and write
interest is armed. `clear()` on that connection returns at its first test: afterwards
write interest is still armed. -/
theorem clear_on_closed_keeps_interest :
    (((sampleConnection .Connected .TcpConnectionByServer []).clear).reply
      [sampleRequest "1" "Echo.say"]).getState = TcpState.Closed ∧
    ((((sampleConnection .Connected .TcpConnectionByServer []).clear).reply
      [sampleRequest "1" "Echo.say"]).clear).getState = TcpState.Closed ∧
    ((((sampleConnection .Connected .TcpConnectionByServer []).clear).reply
      [sampleRequest "1" "Echo.say"]).clear).m_fd_event.write_callback =
      some FdCallback.onWrite := by
  decide

/-- Claim C17, amended. From every connection state, after `clear()` the state is
`Closed`. When the connection was not `Closed` before, read and write interest are
cancelled and the fd-event is deregistered from the loop by one `deleteEpollEvent`;
when it was `Closed` already, `clear()` changes nothing. So a second `clear()` changes
nothing, and the two calls together issue at most one `deleteEpollEvent`. -/
theorem clear_idempotent (c : TcpConnection) :
    c.clear.getState = TcpState.Closed ∧
    (c.m_state ≠ TcpState.Closed →
      c.clear.m_fd_event.read_callback = none ∧
      c.clear.m_fd_event.write_callback = none ∧
      c.clear.m_event_loop =
        c.m_event_loop ++ [EpollCall.deleteEpollEvent c.clear.m_fd_event]) ∧
    (c.m_state = TcpState.Closed → c.clear = c) ∧
    c.clear.clear = c.clear ∧
    c.clear.clear.m_event_loop.countP EpollCall.isDelete ≤
      c.m_event_loop.countP EpollCall.isDelete + 1 := by
  have hclosed : c.clear.m_state = TcpState.Closed := by
    unfold clear
    split
    · assumption
    · rfl
  have hidem : c.clear.clear = c.clear := by
    generalize hc' : c.clear = c' at hclosed
    unfold clear
    rw [if_pos hclosed]
  refine ⟨hclosed, ?_, ?_, hidem, ?_⟩
  · intro hne
    unfold clear
    rw [if_neg hne]
    simp [FdEvent.cancle]
  · intro he
    unfold clear
    rw [if_pos he]
  · rw [hidem]
    unfold clear
    split
    · omega
    · simp [List.countP_append, EpollCall.isDelete]

/-- Claim C18. For a connection whose state is not `Connected` (`Closed` in
particular), `onRead` and `onWrite` return at once, whatever the socket would answer:
no `read` and no `write` is made, the connection is left as it is (in-buffer,
out-buffer, pending writes and pending reads included), `excute` is not reached, so
neither the dispatcher nor a read callback runs, and no write callback runs. -/
theorem onRead_onWrite_return_at_once (c : TcpConnection)
    (h : c.m_state ≠ TcpState.Connected) (reads : List ReadResult)
    (writes : List WriteResult) (dispatcher : RpcDispatcher) (codes : ErrorCodes) :
    c.onRead reads dispatcher codes =
      some { connection := c, reads := 0, excuted := none } ∧
    c.onWrite writes =
      some { connection := c, sent := [], writes := 0, write_dones_run := [] } := by
  constructor
  · unfold onRead
    rw [if_pos h]
  · unfold onWrite
    rw [if_pos h]

/-- The early-return theorem on a `Closed` client connection with a pending read, a
pending write and a socket that has data and would accept a write. -/
theorem onRead_onWrite_return_at_once_witness :
    ((sampleClient.pushSendMessage (sampleRequest "7" "A.m") 77).clear).m_state ≠
      TcpState.Connected ∧
    (((sampleClient.pushSendMessage (sampleRequest "7" "A.m") 77).clear).onRead
        [ReadResult.data [1, 2, 3]] (RpcDispatcher.mk []) sampleCodes).map
      (fun r => (r.reads, r.excuted.isSome, r.connection.m_in_buffer,
        r.connection.m_read_dones, r.connection.m_write_dones)) =
      some (0, false, sampleClient.m_in_buffer, sampleClient.m_read_dones,
        [(sampleRequest "7" "A.m", 77)]) ∧
    (((sampleClient.pushSendMessage (sampleRequest "7" "A.m") 77).clear).onWrite
        [WriteResult.wrote 1]).map
      (fun r => (r.writes, r.sent, r.write_dones_run, r.connection.m_out_buffer)) =
      some (0, [], [], sampleClient.m_out_buffer) := by
  have h := onRead_onWrite_return_at_once
    ((sampleClient.pushSendMessage (sampleRequest "7" "A.m") 77).clear) (by decide)
    [ReadResult.data [1, 2, 3]] [WriteResult.wrote 1] (RpcDispatcher.mk []) sampleCodes
  refine ⟨by decide, ?_, ?_⟩
  · rw [h.1]
    rfl
  · rw [h.2]
    rfl

end TcpConnection

namespace RpcDispatcher

/-- The reply closure leaves msg-id and method-full-name of the response object as they
are. -/
theorem replyClosure_keeps_ids (codes : ErrorCodes) (service : Service)
    (method : MethodDescriptor) (rsp_msg : Message) (rsp_protocol : TinyPBProtocol)
    (connection : TcpConnection) :
    (replyClosure codes service method rsp_msg rsp_protocol connection).1.m_msg_id =
      rsp_protocol.m_msg_id ∧
    (replyClosure codes service method rsp_msg rsp_protocol connection).1.m_method_name =
      rsp_protocol.m_method_name := by
  rcases hs : service.SerializeToString method rsp_msg with ⟨ok, data⟩
  cases ok <;> simp [replyClosure, hs, setTinyPBError]

/-- Claim C19. For every request, response object, service map and connection, and on
every path by which `dispatch` returns (parse error, unknown service, unknown method,
deserialize failure, handler invoked with or without its closure run), the msg-id of
the response is the msg-id of the request and the method-full-name of the response is
the method-full-name of the request. -/
theorem dispatch_copies_ids (d : RpcDispatcher) (codes : ErrorCodes)
    (request response : TinyPBProtocol) (connection : TcpConnection) :
    (d.dispatch codes request response connection).response.m_msg_id =
      request.m_msg_id ∧
    (d.dispatch codes request response connection).response.m_method_name =
      request.m_method_name := by
  unfold dispatch
  simp only
  repeat' split
  all_goals
    first
    | exact ⟨rfl, rfl⟩
    | simp [replyClosure_keeps_ids]

end RpcDispatcher

namespace TcpConnection

/-- Claim C15 (the code breaks it). `shutdown()` moves a connected connection to
`HalfClosing`; a following `onRead` returns at its first test, because the state is not
`Connected`: it makes no `read`, so it never sees the 0 bytes of the peer's FIN, and
the state stays `HalfClosing`. This is so for every connected connection and every
socket script, and in particular for the connected server connection of the examples
with the script "read returns 0". -/
theorem onRead_after_shutdown_stays_halfClosing (c : TcpConnection)
    (script : List ReadResult) (dispatcher : RpcDispatcher) (codes : ErrorCodes) :
    (c.m_state = TcpState.Connected →
      c.shutdown.getState = TcpState.HalfClosing ∧
      c.shutdown.onRead script dispatcher codes =
        some { connection := c.shutdown, reads := 0, excuted := none }) ∧
    (sampleConnection .Connected .TcpConnectionByServer []).shutdown.getState =
      TcpState.HalfClosing ∧
    ((sampleConnection .Connected .TcpConnectionByServer []).shutdown.onRead
        [ReadResult.eof] (RpcDispatcher.mk []) sampleCodes).map
      (fun r => (r.connection.getState, r.reads)) =
      some (TcpState.HalfClosing, 0) := by
  refine ⟨?_, by decide, by decide⟩
  intro hc
  have hs : c.shutdown.m_state = TcpState.HalfClosing := by
    unfold shutdown
    rw [if_neg (by rw [hc]; decide)]
  refine ⟨hs, ?_⟩
  unfold onRead
  rw [if_pos (by rw [hs]; decide)]

/-- Claim C20 (the code breaks it). The in-buffer of capacity 4 is empty; the first
`read` returns the 4 bytes asked for, the second the 2 bytes 5, 6 (a short read). After
the read loop the readable bytes are 5, 6: `moveWriteIndex(4)` refused to move the
write index to the capacity, and the second `read` overwrote the first two bytes. The
same on the connected server connection of the examples (capacity 8): after an
`onRead` whose only `read` returns 8 bytes, nothing is readable. -/
theorem readLoop_loses_full_read :
    readLoop ⟨0, 0, 4, List.replicate 4 0⟩
        [ReadResult.data [1, 2, 3, 4], ReadResult.data [5, 6]] =
      some { in_buffer := ⟨0, 2, 4, [5, 6, 3, 4]⟩, is_read_all := true,
             is_close := false, reads := 2 } ∧
    TcpBuffer.readableBytes ⟨0, 2, 4, [5, 6, 3, 4]⟩ = [5, 6] ∧
    TcpBuffer.readableBytes ⟨0, 0, 4, List.replicate 4 0⟩ ++ [1, 2, 3, 4] ++ [5, 6] =
      [1, 2, 3, 4, 5, 6] ∧
    TcpBuffer.moveWriteIndex ⟨0, 0, 4, [1, 2, 3, 4]⟩ 4 = some ⟨0, 0, 4, [1, 2, 3, 4]⟩ ∧
    ((sampleConnection .Connected .TcpConnectionByServer []).onRead
        [ReadResult.data [1, 2, 3, 4, 5, 6, 7, 8], ReadResult.eagain]
        (RpcDispatcher.mk []) sampleCodes).map
      (fun r => (r.reads, r.connection.m_in_buffer.readableBytes)) = some (2, []) := by
  decide

/-- What the read loop does get right: a first `read` that returns fewer bytes than
were asked for ends the loop with these bytes appended to the readable ones. -/
theorem readLoop_short_read (b : TcpBuffer) (h : b.IndexInv) (bytes : List Byte)
    (script : List ReadResult) (h1 : 0 < bytes.length)
    (h2 : (bytes.length : Int) < b.writeAble) (hcap : (b.m_buffer.length : Int) < 2 ^ 64) :
    ∃ r, readLoop b (ReadResult.data bytes :: script) = some r ∧
      r.in_buffer.readableBytes = b.readableBytes ++ bytes ∧
      r.is_read_all = true ∧ r.is_close = false ∧ r.reads = 1 := by
  have hinv := h
  obtain ⟨h0, hrw, hwl⟩ := h
  simp only [TcpBuffer.writeAble] at h2
  have hgrow : growIfFull b = some b := by
    unfold growIfFull
    rw [if_neg (by simp only [TcpBuffer.writeAble]; omega)]
  have hm := @TcpBuffer.memcpy_eq_some b.m_buffer bytes b.m_write_index 0 bytes.length
    (by omega) (by omega) (le_refl _) (by omega) (by omega)
  have hlen := TcpBuffer.length_memcpy_result b.m_buffer bytes b.m_write_index
    bytes.length (0 : Int).toNat (by omega) (by omega) (by omega)
    (by simp only [Int.toNat_zero, List.drop_zero, Int.toNat_ofNat]; omega)
  have hmod : (b.m_write_index + (bytes.length : Int)) % 2 ^ 64 =
      b.m_write_index + (bytes.length : Int) := Int.emod_eq_of_lt (by omega) (by omega)
  have inv1 : TcpBuffer.IndexInv { b with
      m_buffer := b.m_buffer.take b.m_write_index.toNat ++
        (bytes.drop (0 : Int).toNat).take (bytes.length : Int).toNat ++
        b.m_buffer.drop (b.m_write_index + (bytes.length : Int)).toNat,
      m_write_index := b.m_write_index + (bytes.length : Int) } := by
    simp only [TcpBuffer.IndexInv]
    rw [hlen]
    omega
  obtain ⟨b2, e2, -, -, rd2, -⟩ := TcpBuffer.adjustBuffer_spec _ inv1
  have hmove : TcpBuffer.moveWriteIndex { b with
      m_buffer := b.m_buffer.take b.m_write_index.toNat ++
        (bytes.drop (0 : Int).toNat).take (bytes.length : Int).toNat ++
        b.m_buffer.drop (b.m_write_index + (bytes.length : Int)).toNat }
      (bytes.length : Int) = some b2 := by
    unfold TcpBuffer.moveWriteIndex
    simp only [hmod]
    rw [if_neg (by rw [hlen]; omega)]
    exact e2
  refine ⟨{ in_buffer := b2, is_read_all := true, is_close := false, reads := 1 },
    ?_, ?_, rfl, rfl, rfl⟩
  · simp only [readLoop, hgrow, TcpBuffer.writeAble, TcpBuffer.writeIndex, hm, hmove,
      Option.bind_eq_bind, Option.some_bind]
    rw [if_pos ⟨by omega, by omega⟩, if_neg (by omega)]
  · show b2.readableBytes = _
    rw [rd2, TcpBuffer.readableBytes_append b hinv bytes bytes.length (by omega)
      (le_refl _)]
    simp

end TcpConnection

/-! ## TcpConnection: the write path and read errors -/

namespace TcpConnection

/-- A call of `onWrite` on a SERVER connection leaves the out-buffer as it was, whatever
the socket accepted: nothing is ever removed from its readable region. -/
theorem onWrite_server_keeps_out_buffer (c : TcpConnection) (script : List WriteResult)
    (r : OnWriteResult)
    (hs : c.m_connection_type = TcpConnectionType.TcpConnectionByServer)
    (h : c.onWrite script = some r) :
    r.connection.m_out_buffer = c.m_out_buffer := by
  have hnc : ¬ c.m_connection_type = TcpConnectionType.TcpConnectionByClient := by
    rw [hs]; decide
  unfold onWrite at h
  split at h
  · cases h
    rfl
  · simp only [if_neg hnc, Option.bind_eq_bind] at h
    cases hw : writeLoop c.m_out_buffer script with
    | none => simp [hw] at h
    | some w =>
      simp only [hw, Option.some_bind] at h
      cases hall : w.is_write_all
      · simp [hall, hnc] at h
        cases h
        rfl
      · simp [hall, hnc] at h
        cases h
        rfl

/-- Claim C21 (the code breaks it). The connected server connection of the examples
has the bytes 97, 98, 99 readable in its out-buffer. In one `onWrite` the socket first
accepts 1 byte (a partial write) and then 3: the second `write` is passed the bytes
from the same read index, so the socket accepts 97 twice, and afterwards all 3 bytes
are still readable. In an `onWrite` in which the one `write` accepts everything, the
readable count afterwards is 3, not 0; and when a further byte 100 is queued by
`reply`, the next `onWrite` passes 97, 98, 99 to `write` again. -/
theorem onWrite_never_consumes_out_buffer :
    sampleReplied.m_state = TcpState.Connected ∧
    sampleReplied.m_out_buffer.readableBytes = [97, 98, 99] ∧
    (sampleReplied.onWrite [WriteResult.wrote 1, WriteResult.wrote 3]).map
      (fun r => (r.sent, r.connection.m_out_buffer.readableBytes,
        r.connection.m_out_buffer.readAble)) =
      some ([[97], [97, 98, 99]], [97, 98, 99], 3) ∧
    (sampleReplied.onWrite [WriteResult.wrote 3]).map
      (fun r => (r.sent, r.connection.m_out_buffer.readableBytes,
        r.connection.m_out_buffer.readAble)) =
      some ([[97, 98, 99]], [97, 98, 99], 3) ∧
    ((sampleReplied.onWrite [WriteResult.wrote 3]).bind
      (fun r => (r.connection.reply [sampleRequest "d" "Echo.say"]).onWrite
        [WriteResult.wrote 4])).map
      (fun r => (r.sent, r.connection.m_out_buffer.readAble)) =
      some ([[97, 98, 99, 100]], 4) := by
  decide

/-- A failed `read` on an in-buffer with room is answered by the next `read`. -/
theorem readLoop_error (b : TcpBuffer) (hw : b.writeAble ≠ 0) (script : List ReadResult) :
    readLoop b (ReadResult.error :: script) =
      (readLoop b script).bind fun rest => some { rest with reads := rest.reads + 1 } := by
  simp [readLoop, growIfFull, hw]

/-- Any number of failed `read`s followed by `EAGAIN` ends the read loop as `EAGAIN`
alone does: all data read, not closed. -/
theorem readLoop_errors_then_eagain (b : TcpBuffer) (hw : b.writeAble ≠ 0) (n : Nat) :
    readLoop b (List.replicate n ReadResult.error ++ [ReadResult.eagain]) =
      some { in_buffer := b, is_read_all := true, is_close := false, reads := n + 1 } := by
  induction n with
  | zero => simp [readLoop, growIfFull, hw]
  | succ n ih =>
    rw [List.replicate_succ, List.cons_append, readLoop_error b hw, ih]
    rfl

/-- On a connected connection whose in-buffer has room, an `onRead` whose `read`s fail
`n` times before one reports `EAGAIN` goes on to `excute`, as if no `read` had
failed. -/
theorem onRead_errors_then_eagain (c : TcpConnection) (hc : c.m_state = TcpState.Connected)
    (hw : c.m_in_buffer.writeAble ≠ 0) (n : Nat) (dispatcher : RpcDispatcher)
    (codes : ErrorCodes) :
    c.onRead (List.replicate n ReadResult.error ++ [ReadResult.eagain]) dispatcher codes =
      some { connection := (c.excute dispatcher codes).connection, reads := n + 1,
             excuted := some (c.excute dispatcher codes) } := by
  unfold onRead
  rw [if_neg (by rw [hc]; decide), readLoop_errors_then_eagain _ hw]
  rfl

/-- Claim C22 (the code breaks it). On the connected server connection of the
examples, an `onRead` whose first `read` fails with an error other than `EAGAIN`, and
whose next `read` reports `EAGAIN`, makes both `read`s and goes on to `excute`; the
state is `Connected` afterwards, read interest is still armed and nothing was
deregistered from the event loop. The same for every number `n` of failed `read`s
before the `EAGAIN`: each failure is answered by another `read`. -/
theorem onRead_retries_failed_read (n : Nat) :
    ((sampleConnection .Connected .TcpConnectionByServer []).onRead
        [ReadResult.error, ReadResult.eagain] (RpcDispatcher.mk []) sampleCodes).map
      (fun r => (r.connection.getState, r.reads, r.excuted.isSome,
        r.connection.m_fd_event.read_callback, r.connection.m_event_loop)) =
      some (TcpState.Connected, 2, true, some FdCallback.onRead, []) ∧
    ((sampleConnection .Connected .TcpConnectionByServer []).onRead
        (List.replicate n ReadResult.error ++ [ReadResult.eagain]) (RpcDispatcher.mk [])
        sampleCodes).map
      (fun r => (r.connection.getState, r.reads, r.excuted.isSome,
        r.connection.m_fd_event.read_callback, r.connection.m_event_loop)) =
      some (TcpState.Connected, n + 1, true, some FdCallback.onRead, []) := by
  refine ⟨by decide, ?_⟩
  rw [onRead_errors_then_eagain _ rfl (by decide)]
  rfl

/-- A call of `onWrite` on a connected CLIENT connection that returns has encoded the
queued messages, in enqueue order, with one call of `encode`, has run every queued
callback once with its message, in enqueue order, and has emptied the queue: whatever
the `write`s returned. -/
theorem onWrite_client_runs_all (c : TcpConnection) (script : List WriteResult)
    (r : OnWriteResult) (hc : c.m_state = TcpState.Connected)
    (ht : c.m_connection_type = TcpConnectionType.TcpConnectionByClient)
    (h : c.onWrite script = some r) :
    r.connection.m_out_buffer =
      c.m_coder.encode (c.m_write_dones.map Prod.fst) c.m_out_buffer ∧
    r.write_dones_run = c.m_write_dones.map (fun p => (p.2, p.1)) ∧
    r.connection.m_write_dones = [] := by
  unfold onWrite at h
  rw [if_neg (by rw [hc]; decide)] at h
  simp only [if_pos ht, Option.bind_eq_bind] at h
  cases hw : writeLoop (c.m_coder.encode (c.m_write_dones.map Prod.fst) c.m_out_buffer)
      script with
  | none => simp [hw] at h
  | some w =>
    simp only [hw, Option.some_bind] at h
    cases hall : w.is_write_all
    · simp [hall, ht] at h
      cases h
      exact ⟨rfl, rfl, rfl⟩
    · simp [hall, ht] at h
      cases h
      exact ⟨rfl, rfl, rfl⟩

/-- Claim C23 (the code breaks it). On the connected client connection of the
examples one pair is queued: the message with msg-id `7` and the callback 77. In an
`onWrite` whose first `write` would-blocks the socket accepts nothing and the encoded
byte stays in the out-buffer with write interest armed, yet the callback 77 is run with
the message and the pair leaves the queue. -/
theorem onWrite_runs_callbacks_on_would_block :
    sampleSender.m_state = TcpState.Connected ∧
    sampleSender.m_connection_type = TcpConnectionType.TcpConnectionByClient ∧
    sampleSender.m_write_dones = [(sampleRequest "7" "A.m", 77)] ∧
    (sampleSender.onWrite [WriteResult.eagain]).map
      (fun r => (r.sent, r.connection.m_out_buffer.readableBytes,
        r.connection.m_fd_event.write_callback, r.write_dones_run,
        r.connection.m_write_dones)) =
      some ([], [55], some FdCallback.onWrite, [(77, sampleRequest "7" "A.m")], []) :=
  ⟨rfl, rfl, rfl, rfl⟩

end TcpConnection

end rocket
